import Mathlib

/-!
Verification of the NexMind note-taking core: similarity engine, fallback
embedding generator, knowledge-graph builder, automation heuristics,
suggestion store, and the relative-date parser of the NLP pipeline.

Numbers that the TypeScript source handles as IEEE doubles are modelled as
real numbers (exact arithmetic); integer hash arithmetic is modelled with
explicit 32-bit truncation.  Stateful functions that mutate a graph or a
stored array in place are modelled as functions returning the new value.
JavaScript exceptions are modelled with `Option` (`none` = throw).
-/

namespace NexMind

/-! ## JavaScript string primitives used by the source -/

/-- The whitespace characters recognised by the JS `\s` class / `trim()`
(restricted to the ASCII ones, which are the only ones the app's inputs use). -/
def isJsWs (c : Char) : Bool :=
  c = ' ' || c = '\t' || c = '\n' || c = '\r' || c = '\x0b' || c = '\x0c'

/-- `String.prototype.toLowerCase`, character by character. -/
def jsToLower (s : String) : String :=
  String.mk (s.data.map Char.toLower)

/-- `String.prototype.trim` on a character list. -/
def jsTrimList (l : List Char) : List Char :=
  ((l.dropWhile isJsWs).reverse.dropWhile isJsWs).reverse

/-- `String.prototype.trim`. -/
def jsTrim (s : String) : String :=
  String.mk (jsTrimList s.data)

/-- Whether `p` occurs as a contiguous substring of `l`
(JS `String.prototype.includes`). -/
def containsSub : List Char → List Char → Bool
  | [], p => p.isPrefixOf ([] : List Char)
  | c :: rest, p => p.isPrefixOf (c :: rest) || containsSub rest p

/-- JS `includes` on strings. -/
def jsIncludes (s pat : String) : Bool :=
  containsSub s.data pat.data

/-! ## Similarity engine (`calculateCosineSimilarity`) -/

/-- Dot product accumulated over the common indices, as in the source's loop. -/
noncomputable def dotList (v1 v2 : List ℝ) : ℝ :=
  ((v1.zip v2).map fun p => p.1 * p.2).sum

/-- Sum of squares of a vector (the loop's `magnitude` accumulator
before `Math.sqrt`). -/
noncomputable def sumSq (v : List ℝ) : ℝ :=
  (v.map fun x => x * x).sum

/-- Euclidean magnitude of a vector, `Math.sqrt` of the accumulated squares. -/
noncomputable def magnitude (v : List ℝ) : ℝ :=
  Real.sqrt (sumSq v)

/-- `calculateCosineSimilarity(vec1, vec2)`: throws (`none`) if the lengths
differ, returns 0 if either magnitude is zero, otherwise the cosine. -/
noncomputable def calculateCosineSimilarity (vec1 vec2 : List ℝ) : Option ℝ :=
  if vec1.length ≠ vec2.length then none
  else if magnitude vec1 = 0 ∨ magnitude vec2 = 0 then some 0
  else some (dotList vec1 vec2 / (magnitude vec1 * magnitude vec2))

theorem sumSq_nonneg (v : List ℝ) : 0 ≤ sumSq v := by
  unfold sumSq
  induction v with
  | nil => simp
  | cons x xs ih =>
    simp only [List.map_cons, List.sum_cons]
    nlinarith [mul_self_nonneg x]

theorem magnitude_nonneg (v : List ℝ) : 0 ≤ magnitude v :=
  Real.sqrt_nonneg _

theorem magnitude_eq_zero_iff (v : List ℝ) : magnitude v = 0 ↔ sumSq v = 0 := by
  unfold magnitude
  constructor
  · intro h
    have := Real.sqrt_eq_zero (sumSq_nonneg v) |>.mp h
    exact this
  · intro h; rw [h, Real.sqrt_zero]

theorem sumSq_eq_zero_of_all_zero (v : List ℝ) (h : ∀ x ∈ v, x = 0) :
    sumSq v = 0 := by
  unfold sumSq
  induction v with
  | nil => simp
  | cons x xs ih =>
    simp only [List.map_cons, List.sum_cons]
    rw [h x (by simp), ih fun y hy => h y (by simp [hy])]
    ring

theorem dotList_comm (v1 v2 : List ℝ) : dotList v1 v2 = dotList v2 v1 := by
  unfold dotList
  induction v1 generalizing v2 with
  | nil => cases v2 <;> simp [List.zip]
  | cons x xs ih =>
    cases v2 with
    | nil => simp [List.zip]
    | cons y ys => simp [List.zip_cons_cons, ih ys, mul_comm]

theorem dotList_self (v : List ℝ) : dotList v v = sumSq v := by
  unfold dotList sumSq
  induction v with
  | nil => simp
  | cons x xs ih => simp [List.zip_cons_cons, ih]

/-- Cosine similarity of a vector with itself, when its magnitude is
nonzero, is exactly 1. -/
theorem cosSim_self (v : List ℝ) (h : magnitude v ≠ 0) :
    calculateCosineSimilarity v v = some 1 := by
  unfold calculateCosineSimilarity
  rw [if_neg (by simp), if_neg (by tauto)]
  rw [dotList_self]
  have hm : magnitude v * magnitude v = sumSq v := by
    unfold magnitude
    exact Real.mul_self_sqrt (sumSq_nonneg v)
  rw [hm]
  have hs : sumSq v ≠ 0 := by
    intro hz
    exact h ((magnitude_eq_zero_iff v).mpr hz)
  rw [div_self hs]

/-- Cosine similarity is symmetric in its arguments. -/
theorem cosSim_comm (v1 v2 : List ℝ) :
    calculateCosineSimilarity v1 v2 = calculateCosineSimilarity v2 v1 := by
  unfold calculateCosineSimilarity
  by_cases hl : v1.length = v2.length
  · have h1 : ¬(v1.length ≠ v2.length) := by simp [hl]
    have h2 : ¬(v2.length ≠ v1.length) := by simp [hl]
    rw [if_neg h1, if_neg h2]
    by_cases hm : magnitude v1 = 0 ∨ magnitude v2 = 0
    · rw [if_pos hm, if_pos (Or.symm hm)]
    · rw [if_neg hm, if_neg fun h => hm (Or.symm h)]
      rw [dotList_comm, mul_comm]
  · have h1 : v1.length ≠ v2.length := hl
    have h2 : v2.length ≠ v1.length := fun h => hl h.symm
    rw [if_pos h1, if_pos h2]

theorem magnitude_ne_zero_of_pos (v : List ℝ) (h : 0 < sumSq v) :
    magnitude v ≠ 0 :=
  ne_of_gt (Real.sqrt_pos.mpr h)

/-- C5: `calculateCosineSimilarity` throws exactly when the two vectors have
different lengths; on equal lengths it returns 0 whenever either vector has
zero magnitude (in particular for any zero vector) instead of dividing by
zero, and the cosine of the two vectors otherwise. -/
theorem C5_cosine_error_contract :
    (∀ v1 v2 : List ℝ, calculateCosineSimilarity v1 v2 = none ↔ v1.length ≠ v2.length) ∧
    (∀ v1 v2 : List ℝ, v1.length = v2.length →
      magnitude v1 = 0 ∨ magnitude v2 = 0 →
      calculateCosineSimilarity v1 v2 = some 0) ∧
    (∀ v1 v2 : List ℝ, v1.length = v2.length → magnitude v1 ≠ 0 → magnitude v2 ≠ 0 →
      calculateCosineSimilarity v1 v2 =
        some (dotList v1 v2 / (magnitude v1 * magnitude v2))) := by
  refine ⟨fun v1 v2 => ?_, fun v1 v2 hl hz => ?_, fun v1 v2 hl h1 h2 => ?_⟩
  · unfold calculateCosineSimilarity
    by_cases hl : v1.length ≠ v2.length
    · simp [if_pos hl, hl]
    · rw [if_neg hl]
      by_cases hm : magnitude v1 = 0 ∨ magnitude v2 = 0 <;> simp [hm, hl]
  · unfold calculateCosineSimilarity
    rw [if_neg (by simp [hl]), if_pos hz]
  · unfold calculateCosineSimilarity
    rw [if_neg (by simp [hl]), if_neg (by tauto)]

/-- Witness for C5 at concrete inputs: a length mismatch throws, a zero
vector on either side yields 0, and nonzero equal-length vectors yield the
cosine. -/
theorem C5_witness :
    calculateCosineSimilarity [(1 : ℝ)] [1, 2] = none ∧
    calculateCosineSimilarity [(1 : ℝ)] [0] = some 0 ∧
    calculateCosineSimilarity [(0 : ℝ), 0] [1, 1] = some 0 ∧
    calculateCosineSimilarity [(3 : ℝ)] [4] =
      some (dotList [3] [4] / (magnitude [3] * magnitude [4])) := by
  refine ⟨C5_cosine_error_contract.1 _ _ |>.mpr (by simp),
          C5_cosine_error_contract.2.1 _ _ (by simp)
            (Or.inr ((magnitude_eq_zero_iff _).mpr (by norm_num [sumSq]))),
          C5_cosine_error_contract.2.1 _ _ (by simp)
            (Or.inl ((magnitude_eq_zero_iff _).mpr
              (sumSq_eq_zero_of_all_zero _ fun x hx => by simpa using hx))),
          C5_cosine_error_contract.2.2 _ _ (by simp) ?_ ?_⟩
  · exact magnitude_ne_zero_of_pos _ (by norm_num [sumSq])
  · exact magnitude_ne_zero_of_pos _ (by norm_num [sumSq])

/-- Counterexample to C6 as stated: the cosine similarity of the zero vector
with itself is 0, not 1 (the code returns 0 on zero magnitude). -/
theorem C6_counterexample :
    calculateCosineSimilarity [(0 : ℝ)] [0] ≠ some 1 := by
  unfold calculateCosineSimilarity
  rw [if_neg (by simp), if_pos]
  · simp
  · exact Or.inl ((magnitude_eq_zero_iff _).mpr (by norm_num [sumSq]))

/-- C6 (amended): cosine similarity is symmetric, and every vector of
nonzero magnitude has similarity exactly 1 with itself; the zero vector
instead yields 0 by the zero-magnitude guard. -/
theorem C6_cosine_symmetric_and_self :
    (∀ v1 v2 : List ℝ, calculateCosineSimilarity v1 v2 = calculateCosineSimilarity v2 v1) ∧
    (∀ v : List ℝ, magnitude v ≠ 0 → calculateCosineSimilarity v v = some 1) :=
  ⟨cosSim_comm, cosSim_self⟩

/-- Witness for C6 at concrete inputs. -/
theorem C6_witness :
    calculateCosineSimilarity [(1 : ℝ), 2] [3, 4] = calculateCosineSimilarity [(3 : ℝ), 4] [1, 2] ∧
    calculateCosineSimilarity [(2 : ℝ)] [2] = some 1 :=
  ⟨C6_cosine_symmetric_and_self.1 _ _,
   C6_cosine_symmetric_and_self.2 [2] (magnitude_ne_zero_of_pos _ (by norm_num [sumSq]))⟩

/-! ## Fallback embedding generator (`generateEmbedding` in ai.ts) -/

/-- `text.split(/\s+/)`: the fields between maximal whitespace runs.  A
leading or trailing run contributes an empty field and the empty string
yields one empty field, exactly as in JS. -/
def jsSplitWs : List Char → List (List Char)
  | [] => [[]]
  | c :: rest =>
    let r := jsSplitWs rest
    if isJsWs c then
      match rest with
      | [] => [] :: r
      | c2 :: _ => if isJsWs c2 then r else [] :: r
    else
      match r with
      | [] => [[c]]
      | f :: fs => (c :: f) :: fs

/-- Truncation of an integer to a signed 32-bit value (the effect of JS
`x | 0` / `x & x` and of the `<<` operator's operand coercion). -/
def toInt32 (n : ℤ) : ℤ :=
  (n + 2 ^ 31) % 2 ^ 32 - 2 ^ 31

/-- One step of the source's rolling hash:
`hash = ((hash << 5) - hash) + charCode; hash = hash & hash`. -/
def hashStep (hash : ℤ) (c : Char) : ℤ :=
  toInt32 (toInt32 (hash * 32) - hash + c.toNat)

/-- The 32-bit rolling hash of a word. -/
def jsHash (w : List Char) : ℤ :=
  w.foldl hashStep 0

/-- `Math.abs(hash) % vector.length` with the fixed 128-entry vector. -/
def hashPosition (w : List Char) : ℕ :=
  (jsHash w).natAbs % 128

/-- One `words.forEach` step: accumulate `1 / (index + 1)` at the word's
hash slot. -/
def accumStep (v : List ℚ) (p : ℕ × List Char) : List ℚ :=
  v.set (hashPosition p.2) (v.getD (hashPosition p.2) 0 + 1 / (p.1 + 1))

/-- The accumulated (pre-normalization) 128-entry vector of a text:
lower-case, split on whitespace, then hash each word into a slot. -/
def accumVector (text : String) : List ℚ :=
  (jsSplitWs (text.data.map Char.toLower)).enum.foldl accumStep (List.replicate 128 0)

/-- The accumulated vector viewed over ℝ. -/
noncomputable def realVec (text : String) : List ℝ :=
  (accumVector text).map (Rat.cast : ℚ → ℝ)

/-- The magnitude the source computes before normalizing. -/
noncomputable def embMagnitude (text : String) : ℝ :=
  Real.sqrt (sumSq (realVec text))

/-- `generateEmbedding(text)`: the accumulated vector, L2-normalized when its
magnitude is positive. -/
noncomputable def generateEmbedding (text : String) : List ℝ :=
  if 0 < embMagnitude text then
    (realVec text).map fun v => v / embMagnitude text
  else realVec text

theorem accum_foldl_length (ws : List (ℕ × List Char)) (v : List ℚ) :
    (ws.foldl accumStep v).length = v.length := by
  induction ws generalizing v with
  | nil => rfl
  | cons p ps ih =>
    simp only [List.foldl_cons]
    rw [ih]
    simp [accumStep]

theorem sumSq_cast (v : List ℚ) :
    sumSq (v.map (Rat.cast : ℚ → ℝ)) = (((v.map fun x => x * x).sum : ℚ) : ℝ) := by
  unfold sumSq
  induction v with
  | nil => simp
  | cons x xs ih =>
    simp only [List.map_cons, List.sum_cons]
    push_cast
    rw [ih]
    push_cast
    ring

set_option maxRecDepth 8000 in
theorem accumVector_empty :
    accumVector "" = (List.replicate 128 (0 : ℚ)).set 0 1 := by
  with_unfolding_all rfl

set_option maxRecDepth 8000 in
theorem embMagnitude_empty : embMagnitude "" = 1 := by
  unfold embMagnitude realVec
  rw [accumVector_empty, sumSq_cast]
  rw [show (((List.replicate 128 (0 : ℚ)).set 0 1).map fun x => x * x).sum = 1 by with_unfolding_all rfl]
  rw [Rat.cast_one, Real.sqrt_one]

theorem realVec_length (text : String) : (realVec text).length = 128 := by
  unfold realVec accumVector
  rw [List.length_map, accum_foldl_length, List.length_replicate]

theorem genEmb_empty :
    generateEmbedding "" = (List.replicate 128 (0 : ℝ)).set 0 1 := by
  unfold generateEmbedding
  rw [if_pos (by rw [embMagnitude_empty]; norm_num)]
  rw [embMagnitude_empty]
  simp only [div_one, List.map_id']
  unfold realVec
  rw [accumVector_empty, List.map_set, List.map_replicate]
  norm_num

theorem sumSq_map_div (v : List ℝ) (m : ℝ) :
    sumSq (v.map fun x => x / m) = sumSq v / (m * m) := by
  unfold sumSq
  induction v with
  | nil => simp
  | cons x xs ih =>
    simp only [List.map_cons, List.sum_cons]
    rw [ih, div_mul_div_comm, div_add_div_same]

/-- Counterexample to C7 as stated: on empty input the embedding is not the
zero vector — the empty split yields one empty word, which hashes to slot 0
and contributes weight 1. -/
theorem C7_counterexample :
    generateEmbedding "" ≠ List.replicate 128 (0 : ℝ) := by
  rw [genEmb_empty]
  intro h
  rw [show (List.replicate 128 (0 : ℝ)) = 0 :: List.replicate 127 0 from rfl] at h
  rw [show ((0 : ℝ) :: List.replicate 127 0).set 0 1 = 1 :: List.replicate 127 0 from rfl] at h
  exact one_ne_zero (List.cons.injEq .. |>.mp h).1

/-- C7 (amended): `generateEmbedding` always returns 128 entries; on empty
input it returns the unit vector with 1.0 at slot 0 (the hash slot of the
single empty word the split produces), not the zero vector; and whenever the
accumulated magnitude is positive the result is L2-normalized. -/
theorem C7_embedding_contract :
    (∀ text, (generateEmbedding text).length = 128) ∧
    (generateEmbedding "" = (List.replicate 128 (0 : ℝ)).set 0 1) ∧
    (∀ text, 0 < embMagnitude text → sumSq (generateEmbedding text) = 1) := by
  refine ⟨fun text => ?_, genEmb_empty, fun text hpos => ?_⟩
  · unfold generateEmbedding
    by_cases h : 0 < embMagnitude text
    · rw [if_pos h, List.length_map, realVec_length]
    · rw [if_neg h, realVec_length]
  · unfold generateEmbedding
    rw [if_pos hpos, sumSq_map_div]
    have hm : embMagnitude text * embMagnitude text = sumSq (realVec text) :=
      Real.mul_self_sqrt (sumSq_nonneg _)
    rw [hm, div_self]
    intro hz
    rw [embMagnitude] at hpos
    rw [hz, Real.sqrt_zero] at hpos
    exact lt_irrefl 0 hpos

/-- Witness for C7 at concrete inputs. -/
theorem C7_witness :
    (generateEmbedding "hello world").length = 128 ∧
    0 < embMagnitude "" ∧
    sumSq (generateEmbedding "") = 1 := by
  have hpos : 0 < embMagnitude "" := by rw [embMagnitude_empty]; norm_num
  exact ⟨C7_embedding_contract.1 "hello world", hpos,
         C7_embedding_contract.2.2 "" hpos⟩

/-! ## Knowledge graph model (graph.ts)

The graph's `lastUpdated` field only records the wall clock at save time and
is omitted from the model. -/

inductive NodeType
  | note | person | place | project | topic
deriving DecidableEq

inductive EdgeType
  | mentions | relatedTo | similarTo | topicOf | projectOf
deriving DecidableEq

inductive NoteCategory
  | task | event | idea | info | person
deriving DecidableEq

/-- The entity bag attached to a note (`topics` is optional in the source). -/
structure Entities where
  persons : List String
  places : List String
  projects : List String
  topics : Option (List String) := none
deriving DecidableEq

/-- A note.  `createdAt`/`updatedAt` are ISO timestamps in the source and are
modelled by their epoch-millisecond values, which is all the code reads off
them (via `new Date(x).getTime()` and date comparisons). -/
structure Note where
  id : String
  content : String
  category : NoteCategory
  createdAt : Nat
  updatedAt : Option Nat := none
  relatedNoteIds : Option (List String) := none
  entities : Option Entities := none
  embedding : Option (List ℝ) := none

/-- The optional metadata object of a graph node. -/
structure NodeMetadata where
  noteId : Option String := none
  category : Option NoteCategory := none
  createdAt : Option Nat := none
  count : Option Nat := none

structure GraphNode where
  id : String
  type : NodeType
  label : String
  embedding : Option (List ℝ) := none
  metadata : Option NodeMetadata := none

structure GraphEdge where
  id : String
  from' : String
  to' : String
  type : EdgeType
  strength : ℝ

structure KnowledgeGraph where
  nodes : List GraphNode
  edges : List GraphEdge

/-- `generateEdgeId(from, to, type)` builds the template string
`edge_${type}_${from}_${to}`. -/
def generateEdgeId (f t ty : String) : String :=
  "edge_" ++ ty ++ "_" ++ f ++ "_" ++ t

/-- JS object-spread merge `{...old.metadata, ...node.metadata}`: a field
present on the new metadata wins, an absent one keeps the old value.  (Every
metadata literal in the source only writes the fields it means to set.) -/
def mergeMetadata (old new : Option NodeMetadata) : NodeMetadata :=
  { noteId := (new.bind fun m => m.noteId).orElse fun _ => old.bind fun m => m.noteId
    category := (new.bind fun m => m.category).orElse fun _ => old.bind fun m => m.category
    createdAt := (new.bind fun m => m.createdAt).orElse fun _ => old.bind fun m => m.createdAt
    count := (new.bind fun m => m.count).orElse fun _ => old.bind fun m => m.count }

/-- The node update `{...existing, ...node, metadata: merged}`.  `embedding`
keeps the old value when the new node carries none: note nodes always set it
and entity-node literals never have the key, so this matches every call
site's spread behaviour. -/
def mergeNode (old new : GraphNode) : GraphNode :=
  { id := new.id, type := new.type, label := new.label
    embedding := (new.embedding).orElse fun _ => old.embedding
    metadata := some (mergeMetadata old.metadata new.metadata) }

/-- `findIndex` + in-place replace, or push when the id is absent. -/
def upsertNode : List GraphNode → GraphNode → List GraphNode
  | [], node => [node]
  | n :: rest, node =>
    if n.id = node.id then mergeNode n node :: rest
    else n :: upsertNode rest node

/-- `addOrUpdateNode(graph, node)`. -/
def addOrUpdateNode (graph : KnowledgeGraph) (node : GraphNode) : KnowledgeGraph :=
  { graph with nodes := upsertNode graph.nodes node }

/-- The `else` branch of `addEdge`: raise the strength of the first stored
edge with this id if the new strength is larger. -/
noncomputable def bumpEdgeStrength : List GraphEdge → GraphEdge → List GraphEdge
  | [], _ => []
  | e :: rest, edge =>
    if e.id = edge.id then
      (if edge.strength > e.strength then { e with strength := edge.strength } else e) :: rest
    else e :: bumpEdgeStrength rest edge

/-- `addEdge(graph, edge)`: push if the id is new, otherwise keep the maximum
observed strength on the existing edge. -/
noncomputable def addEdge (graph : KnowledgeGraph) (edge : GraphEdge) : KnowledgeGraph :=
  if graph.edges.any fun e => e.id == edge.id then
    { graph with edges := bumpEdgeStrength graph.edges edge }
  else
    { graph with edges := graph.edges ++ [edge] }

/-- The note-node label: the first 50 characters of the content plus an
ellipsis when longer. -/
def noteLabel (content : String) : String :=
  String.mk (content.data.take 50) ++ (if 50 < content.data.length then "..." else "")

/-- `addNoteToGraph(note, graph)`. -/
def addNoteToGraph (note : Note) (graph : KnowledgeGraph) : KnowledgeGraph :=
  addOrUpdateNode graph
    { id := "note_" ++ note.id
      type := NodeType.note
      label := noteLabel note.content
      embedding := note.embedding
      metadata := some { noteId := some note.id, category := some note.category,
                         createdAt := some note.createdAt } }

/-- `label.toLowerCase().replace(/\s+/g, "_")`: every maximal whitespace run
becomes a single underscore. -/
def collapseWsUnderscore : List Char → List Char
  | [] => []
  | c :: rest =>
    let r := collapseWsUnderscore rest
    if isJsWs c then
      match rest with
      | [] => '_' :: r
      | c2 :: _ => if isJsWs c2 then r else '_' :: r
    else c :: r

/-- The normalized entity label used to derive entity node ids. -/
def normalizeLabel (s : String) : String :=
  String.mk (collapseWsUnderscore (s.data.map Char.toLower))

/-- One entity mention (the block the source repeats for persons, places and
projects, and `addTopicNodes` repeats for topics): upsert the entity node
with an incremented mention count and add the note→entity edge. -/
noncomputable def addEntityMention (noteNodeId pfx : String) (ntype : NodeType)
    (etype : EdgeType) (etypeStr : String) (strength : ℝ)
    (graph : KnowledgeGraph) (labelStr : String) : KnowledgeGraph :=
  let entityNodeId := pfx ++ normalizeLabel labelStr
  let prevCount := ((((graph.nodes.find? fun n => n.id == entityNodeId).bind
      fun n => n.metadata).bind fun m => m.count).getD 0)
  let g1 := addOrUpdateNode graph
    { id := entityNodeId, type := ntype, label := labelStr
      metadata := some { count := some (prevCount + 1) } }
  addEdge g1
    { id := generateEdgeId noteNodeId entityNodeId etypeStr
      from' := noteNodeId, to' := entityNodeId, type := etype, strength := strength }

/-- `addEntityNodes(note, graph)`: persons and places get `mentions` edges of
strength 0.9, projects get `projectOf` edges of strength 0.95. -/
noncomputable def addEntityNodes (note : Note) (graph : KnowledgeGraph) : KnowledgeGraph :=
  match note.entities with
  | none => graph
  | some ents =>
    let noteNodeId := "note_" ++ note.id
    let g1 := ents.persons.foldl
      (addEntityMention noteNodeId "person_" NodeType.person EdgeType.mentions "mentions" 0.9)
      graph
    let g2 := ents.places.foldl
      (addEntityMention noteNodeId "place_" NodeType.place EdgeType.mentions "mentions" 0.9) g1
    ents.projects.foldl
      (addEntityMention noteNodeId "project_" NodeType.project EdgeType.projectOf "projectOf" 0.95)
      g2

/-- `addTopicNodes(note, topics, graph)`: `topicOf` edges of strength 0.85. -/
noncomputable def addTopicNodes (note : Note) (topics : List String)
    (graph : KnowledgeGraph) : KnowledgeGraph :=
  if topics.length = 0 then graph
  else
    topics.foldl
      (addEntityMention ("note_" ++ note.id) "topic_" NodeType.topic EdgeType.topicOf "topicOf" 0.85)
      graph

/-- One `allNotes.forEach` step of `addSimilarityEdges`.  A similarity above
the 0.6 threshold inserts the two directed `similarTo` edges; a vector length
mismatch inside `calculateCosineSimilarity` throws (`none`). -/
noncomputable def addSimilarityStep (note : Note) (emb : List ℝ) (noteNodeId : String)
    (g : KnowledgeGraph) (otherNote : Note) : Option KnowledgeGraph :=
  if otherNote.id = note.id then some g
  else
    match otherNote.embedding with
    | none => some g
    | some oemb =>
      match calculateCosineSimilarity emb oemb with
      | none => none
      | some similarity =>
        if (0.6 : ℝ) ≤ similarity then
          let otherNoteNodeId := "note_" ++ otherNote.id
          let g1 := addEdge g
            { id := generateEdgeId noteNodeId otherNoteNodeId "similarTo"
              from' := noteNodeId, to' := otherNoteNodeId
              type := EdgeType.similarTo, strength := similarity }
          some (addEdge g1
            { id := generateEdgeId otherNoteNodeId noteNodeId "similarTo"
              from' := otherNoteNodeId, to' := noteNodeId
              type := EdgeType.similarTo, strength := similarity })
        else some g

/-- `addSimilarityEdges(note, allNotes, graph)`. -/
noncomputable def addSimilarityEdges (note : Note) (allNotes : List Note)
    (graph : KnowledgeGraph) : Option KnowledgeGraph :=
  match note.embedding with
  | none => some graph
  | some emb => allNotes.foldlM (addSimilarityStep note emb ("note_" ++ note.id)) graph

/-- The `topicsMap.has`/`get` lookup on the optional topics map. -/
def lookupTopics (topicsMap : List (String × List String)) (id : String) :
    Option (List String) :=
  (topicsMap.find? fun p => p.1 == id).map fun p => p.2

/-- `buildGraphFromNotes(notes, topicsMap?)`: note nodes, then entity/topic
nodes and edges, then pairwise similarity edges. -/
noncomputable def buildGraphFromNotes (notes : List Note)
    (topicsMap : Option (List (String × List String))) : Option KnowledgeGraph :=
  let g0 : KnowledgeGraph := { nodes := [], edges := [] }
  let g1 := notes.foldl (fun g n => addNoteToGraph n g) g0
  let g2 := notes.foldl (fun g n =>
    let g' := addEntityNodes n g
    match topicsMap with
    | none => g'
    | some tm =>
      match lookupTopics tm n.id with
      | none => g'
      | some topics => addTopicNodes n topics g') g1
  notes.foldlM (fun g n => addSimilarityEdges n notes g) g2

/-! ### Entity-merge behaviour (claim C4) -/

theorem upsertNode_append_skip (l1 l2 : List GraphNode) (node : GraphNode)
    (h : ∀ n ∈ l1, n.id ≠ node.id) :
    upsertNode (l1 ++ l2) node = l1 ++ upsertNode l2 node := by
  induction l1 with
  | nil => simp
  | cons n rest ih =>
    simp only [List.cons_append, upsertNode]
    rw [if_neg (h n (by simp))]
    have hrest := ih fun m hm => h m (by simp [hm])
    simpa [List.append_eq] using hrest

theorem upsertNode_not_found (l : List GraphNode) (node : GraphNode)
    (h : ∀ n ∈ l, n.id ≠ node.id) :
    upsertNode l node = l ++ [node] := by
  have hb := upsertNode_append_skip l [] node h
  simpa [upsertNode] using hb

theorem find?_append_skip {α : Type} (p : α → Bool) (l1 l2 : List α)
    (h : ∀ x ∈ l1, ¬ p x) :
    List.find? p (l1 ++ l2) = List.find? p l2 := by
  induction l1 with
  | nil => simp
  | cons a rest ih =>
    have hpa : p a = false := by simpa using h a (by simp)
    simp only [List.cons_append, List.find?, hpa]
    exact ih fun x hx => h x (by simp [hx])

theorem addEdge_fresh (g : KnowledgeGraph) (edge : GraphEdge)
    (h : ∀ e ∈ g.edges, e.id ≠ edge.id) :
    addEdge g edge = { g with edges := g.edges ++ [edge] } := by
  unfold addEdge
  rw [if_neg]
  simp only [List.any_eq_true, beq_iff_eq, not_exists, not_and]
  exact fun e he => h e he

theorem string_append_left_cancel (a b c : String) (h : a ++ b = a ++ c) :
    b = c := by
  have hd := congrArg String.data h
  simp only [String.data_append] at hd
  exact String.ext (List.append_cancel_left hd)

theorem generateEdgeId_from_inj (f1 f2 t ty : String)
    (h : generateEdgeId f1 t ty = generateEdgeId f2 t ty) : f1 = f2 := by
  unfold generateEdgeId at h
  have hd := congrArg String.data h
  simp only [String.data_append, List.append_assoc] at hd
  have h1 := List.append_cancel_left hd
  have h2 := List.append_cancel_left h1
  have h3 := List.append_cancel_left h2
  exact String.ext (List.append_cancel_right h3)

theorem addEntityMention_fresh (nid pfx : String) (nt : NodeType) (et : EdgeType)
    (ets : String) (st : ℝ) (g : KnowledgeGraph) (lbl : String)
    (hnode : ∀ nd ∈ g.nodes, nd.id ≠ pfx ++ normalizeLabel lbl)
    (hedge : ∀ e ∈ g.edges, e.id ≠ generateEdgeId nid (pfx ++ normalizeLabel lbl) ets) :
    addEntityMention nid pfx nt et ets st g lbl =
      { nodes := g.nodes ++ [{ id := pfx ++ normalizeLabel lbl, type := nt, label := lbl,
                               metadata := some { count := some 1 } }]
        edges := g.edges ++ [{ id := generateEdgeId nid (pfx ++ normalizeLabel lbl) ets,
                               from' := nid, to' := pfx ++ normalizeLabel lbl,
                               type := et, strength := st }] } := by
  have hf : (g.nodes.find? fun n => n.id == pfx ++ normalizeLabel lbl) = none :=
    List.find?_eq_none.mpr fun n hn => by simpa using hnode n hn
  simp only [addEntityMention, hf, Option.bind, Option.getD]
  rw [addOrUpdateNode]
  rw [upsertNode_not_found _ _ hnode]
  rw [addEdge_fresh _ _ hedge]

/-- The re-mention step: `addEntityMention` on a graph whose node list ends
with the entity's node (and is otherwise free of its id) merges into that
node, bumping the count from `c` to `c + 1`, and appends a fresh edge. -/
theorem addEntityMention_remention (nid pfx : String) (nt : NodeType) (et : EdgeType)
    (ets : String) (st : ℝ) (l1 : List GraphNode) (es : List GraphEdge)
    (lbl lbl0 : String) (c : Nat) (emb0 : Option (List ℝ)) (m0 : NodeMetadata)
    (hm0 : m0.count = some c) (n0 : GraphNode)
    (hn0 : n0 = { id := pfx ++ normalizeLabel lbl, type := nt, label := lbl0,
                  embedding := emb0, metadata := some m0 })
    (hnode : ∀ nd ∈ l1, nd.id ≠ pfx ++ normalizeLabel lbl)
    (hedge : ∀ e ∈ es, e.id ≠ generateEdgeId nid (pfx ++ normalizeLabel lbl) ets) :
    addEntityMention nid pfx nt et ets st { nodes := l1 ++ [n0], edges := es } lbl =
      { nodes := l1 ++ [{ id := pfx ++ normalizeLabel lbl, type := nt, label := lbl,
                          embedding := emb0,
                          metadata := some { noteId := m0.noteId, category := m0.category,
                                             createdAt := m0.createdAt, count := some (c + 1) } }]
        edges := es ++ [{ id := generateEdgeId nid (pfx ++ normalizeLabel lbl) ets,
                          from' := nid, to' := pfx ++ normalizeLabel lbl,
                          type := et, strength := st }] } := by
  subst hn0
  simp only [addEntityMention]
  rw [find?_append_skip _ l1 _ fun nd hnd => by simpa using hnode nd hnd]
  simp only [List.find?, beq_self_eq_true, Option.bind, Option.getD, hm0]
  rw [addOrUpdateNode]
  rw [upsertNode_append_skip _ _ _ hnode]
  simp only [upsertNode, if_true]
  simp only [mergeNode, mergeMetadata, Option.orElse, Option.bind]
  rw [addEdge_fresh _ _ hedge]

/-- C4: an entity label mentioned once on each of two notes (possibly as
case/spacing variants with the same normalized form) produces exactly one
person node — re-adding merges metadata, leaving mention count 2 — and
exactly two `mentions` edges, one from each note's node. -/
theorem C4_entity_remention (g0 : KnowledgeGraph) (n1 n2 : Note) (p1 p2 : String)
    (e1 e2 : Entities)
    (hid : n1.id ≠ n2.id)
    (hn1 : n1.entities = some e1) (hn2 : n2.entities = some e2)
    (hp1 : e1.persons = [p1]) (hpl1 : e1.places = []) (hpr1 : e1.projects = [])
    (hp2 : e2.persons = [p2]) (hpl2 : e2.places = []) (hpr2 : e2.projects = [])
    (hnorm : normalizeLabel p2 = normalizeLabel p1)
    (hnode : ∀ nd ∈ g0.nodes, nd.id ≠ "person_" ++ normalizeLabel p1)
    (hedge : ∀ e ∈ g0.edges,
      e.to' ≠ "person_" ++ normalizeLabel p1 ∧
      e.id ≠ generateEdgeId ("note_" ++ n1.id) ("person_" ++ normalizeLabel p1) "mentions" ∧
      e.id ≠ generateEdgeId ("note_" ++ n2.id) ("person_" ++ normalizeLabel p1) "mentions") :
    ((addEntityNodes n2 (addEntityNodes n1 g0)).nodes.filter
        fun n => n.id == "person_" ++ normalizeLabel p1) =
      [{ id := "person_" ++ normalizeLabel p1, type := NodeType.person, label := p2,
         metadata := some { count := some 2 } }] ∧
    ((addEntityNodes n2 (addEntityNodes n1 g0)).edges.filter
        fun e => e.to' == "person_" ++ normalizeLabel p1) =
      [{ id := generateEdgeId ("note_" ++ n1.id) ("person_" ++ normalizeLabel p1) "mentions",
         from' := "note_" ++ n1.id, to' := "person_" ++ normalizeLabel p1,
         type := EdgeType.mentions, strength := 0.9 },
       { id := generateEdgeId ("note_" ++ n2.id) ("person_" ++ normalizeLabel p1) "mentions",
         from' := "note_" ++ n2.id, to' := "person_" ++ normalizeLabel p1,
         type := EdgeType.mentions, strength := 0.9 }] := by
  have hA : addEntityNodes n1 g0 =
      { nodes := g0.nodes ++
          [{ id := "person_" ++ normalizeLabel p1, type := NodeType.person, label := p1,
             embedding := none,
             metadata := some { noteId := none, category := none, createdAt := none,
                                count := some 1 } }]
        edges := g0.edges ++
          [{ id := generateEdgeId ("note_" ++ n1.id) ("person_" ++ normalizeLabel p1) "mentions",
             from' := "note_" ++ n1.id, to' := "person_" ++ normalizeLabel p1,
             type := EdgeType.mentions, strength := 0.9 }] } := by
    unfold addEntityNodes
    rw [hn1]
    simp only [hp1, hpl1, hpr1, List.foldl_cons, List.foldl_nil]
    exact addEntityMention_fresh _ _ _ _ _ _ g0 p1 hnode fun e he => (hedge e he).2.1
  have hne12 :
      generateEdgeId ("note_" ++ n1.id) ("person_" ++ normalizeLabel p1) "mentions" ≠
      generateEdgeId ("note_" ++ n2.id) ("person_" ++ normalizeLabel p1) "mentions" := by
    intro hEq
    exact hid (string_append_left_cancel "note_" _ _ (generateEdgeId_from_inj _ _ _ _ hEq))
  have hB : addEntityNodes n2 (addEntityNodes n1 g0) =
      { nodes := g0.nodes ++
          [{ id := "person_" ++ normalizeLabel p1, type := NodeType.person, label := p2,
             embedding := none,
             metadata := some { noteId := none, category := none, createdAt := none,
                                count := some 2 } }]
        edges := (g0.edges ++
          [{ id := generateEdgeId ("note_" ++ n1.id) ("person_" ++ normalizeLabel p1) "mentions",
             from' := "note_" ++ n1.id, to' := "person_" ++ normalizeLabel p1,
             type := EdgeType.mentions, strength := 0.9 }]) ++
          [{ id := generateEdgeId ("note_" ++ n2.id) ("person_" ++ normalizeLabel p1) "mentions",
             from' := "note_" ++ n2.id, to' := "person_" ++ normalizeLabel p1,
             type := EdgeType.mentions, strength := 0.9 }] } := by
    rw [hA]
    unfold addEntityNodes
    rw [hn2]
    simp only [hp2, hpl2, hpr2, List.foldl_cons, List.foldl_nil]
    have hstep := addEntityMention_remention ("note_" ++ n2.id) "person_" NodeType.person
      EdgeType.mentions "mentions" 0.9 g0.nodes
      (g0.edges ++
        [{ id := generateEdgeId ("note_" ++ n1.id) ("person_" ++ normalizeLabel p1) "mentions",
           from' := "note_" ++ n1.id, to' := "person_" ++ normalizeLabel p1,
           type := EdgeType.mentions, strength := 0.9 }])
      p2 p1 1 none
      { noteId := none, category := none, createdAt := none, count := some 1 } rfl
      { id := "person_" ++ normalizeLabel p1, type := NodeType.person, label := p1,
        embedding := none,
        metadata := some { noteId := none, category := none, createdAt := none,
                           count := some 1 } }
      (by rw [hnorm])
      (fun nd hnd => by rw [hnorm]; exact hnode nd hnd)
      (by
        rw [hnorm]
        intro e he
        rcases List.mem_append.mp he with hg0 | h1
        · exact (hedge e hg0).2.2
        · rw [List.mem_singleton.mp h1]
          exact hne12)
    rw [hnorm] at hstep
    exact hstep
  rw [hB]
  constructor
  · rw [List.filter_append]
    rw [List.filter_eq_nil_iff.mpr fun nd hnd => by simpa using hnode nd hnd]
    simp
  · rw [List.filter_append, List.filter_append]
    rw [List.filter_eq_nil_iff.mpr fun e he => by simpa using (hedge e he).1]
    simp

/-- The empty knowledge graph (the rebuild's starting state). -/
def emptyGraph : KnowledgeGraph := { nodes := [], edges := [] }

/-- A concrete note mentioning person "Maria". -/
def mariaNote1 : Note :=
  { id := "1", content := "Treffen mit Maria", category := NoteCategory.info, createdAt := 0,
    entities := some { persons := ["Maria"], places := [], projects := [] } }

/-- A second concrete note mentioning the same person as "maria". -/
def mariaNote2 : Note :=
  { id := "2", content := "maria angerufen", category := NoteCategory.info, createdAt := 1,
    entities := some { persons := ["maria"], places := [], projects := [] } }

/-- Witness for C4: person "Maria"/"maria" on two concrete notes over the
empty graph gives one merged person node with count 2 and two edges. -/
theorem C4_witness :
    ((addEntityNodes mariaNote2 (addEntityNodes mariaNote1 emptyGraph)).nodes.filter
        fun n => n.id == "person_" ++ normalizeLabel "Maria") =
      [{ id := "person_" ++ normalizeLabel "Maria", type := NodeType.person, label := "maria",
         metadata := some { count := some 2 } }] ∧
    ((addEntityNodes mariaNote2 (addEntityNodes mariaNote1 emptyGraph)).edges.filter
        fun e => e.to' == "person_" ++ normalizeLabel "Maria") =
      [{ id := generateEdgeId ("note_" ++ mariaNote1.id) ("person_" ++ normalizeLabel "Maria")
           "mentions",
         from' := "note_" ++ mariaNote1.id, to' := "person_" ++ normalizeLabel "Maria",
         type := EdgeType.mentions, strength := 0.9 },
       { id := generateEdgeId ("note_" ++ mariaNote2.id) ("person_" ++ normalizeLabel "Maria")
           "mentions",
         from' := "note_" ++ mariaNote2.id, to' := "person_" ++ normalizeLabel "Maria",
         type := EdgeType.mentions, strength := 0.9 }] :=
  C4_entity_remention emptyGraph mariaNote1 mariaNote2 "Maria" "maria"
    { persons := ["Maria"], places := [], projects := [] }
    { persons := ["maria"], places := [], projects := [] }
    (by decide) rfl rfl rfl rfl rfl rfl rfl rfl rfl
    (by intro nd hnd; simp [emptyGraph] at hnd)
    (by intro e he; simp [emptyGraph] at he)

/-! ### Similarity edges in the rebuilt graph (claim C1) -/

/-- An edge that is neither of `similarTo` type nor carries a `similarTo`
style identifier.  Every edge the entity phase produces is safe, which lets
the similarity phase's duplicate check be settled. -/
def safeEdge (e : GraphEdge) : Prop :=
  e.type ≠ EdgeType.similarTo ∧ ∀ x y : String, e.id ≠ generateEdgeId x y "similarTo"

theorem edgeId_ne_similar (ty : String) (c : Char) (cs : List Char)
    (hty : ty.data = c :: cs) (hc : c ≠ 's') (f t x y : String) :
    generateEdgeId f t ty ≠ generateEdgeId x y "similarTo" := by
  intro h
  unfold generateEdgeId at h
  have hd := congrArg String.data h
  simp only [String.data_append, List.append_assoc] at hd
  have h1 := List.append_cancel_left hd
  have hh := congrArg List.head? h1
  rw [hty] at hh
  have hs : ∀ R : List Char, ("similarTo".data ++ R).head? = some 's' := fun R => rfl
  rw [hs] at hh
  simp only [List.cons_append, List.head?_cons, Option.some.injEq] at hh
  exact hc hh

theorem mentions_edgeId_ne_similar (f t x y : String) :
    generateEdgeId f t "mentions" ≠ generateEdgeId x y "similarTo" :=
  edgeId_ne_similar "mentions" 'm' ['e', 'n', 't', 'i', 'o', 'n', 's'] rfl (by decide) f t x y

theorem projectOf_edgeId_ne_similar (f t x y : String) :
    generateEdgeId f t "projectOf" ≠ generateEdgeId x y "similarTo" :=
  edgeId_ne_similar "projectOf" 'p' ['r', 'o', 'j', 'e', 'c', 't', 'O', 'f'] rfl (by decide) f t x y

theorem safeEdge_strength (e : GraphEdge) (s : ℝ) (h : safeEdge e) :
    safeEdge { e with strength := s } := ⟨h.1, h.2⟩

theorem safeEdge_bump (l : List GraphEdge) (edge : GraphEdge)
    (h : ∀ e ∈ l, safeEdge e) : ∀ e' ∈ bumpEdgeStrength l edge, safeEdge e' := by
  induction l with
  | nil => simp [bumpEdgeStrength]
  | cons e0 rest ih =>
    intro e' he'
    simp only [bumpEdgeStrength] at he'
    by_cases hid : e0.id = edge.id
    · rw [if_pos hid] at he'
      rcases List.mem_cons.mp he' with h1 | h2
      · rw [h1]
        by_cases hgt : edge.strength > e0.strength
        · rw [if_pos hgt]
          exact safeEdge_strength e0 edge.strength (h e0 (by simp))
        · rw [if_neg hgt]
          exact h e0 (by simp)
      · exact h e' (by simp [h2])
    · rw [if_neg hid] at he'
      rcases List.mem_cons.mp he' with h1 | h2
      · rw [h1]; exact h e0 (by simp)
      · exact ih (fun x hx => h x (by simp [hx])) e' h2

theorem safeEdge_addEdge (g : KnowledgeGraph) (edge : GraphEdge)
    (hg : ∀ e ∈ g.edges, safeEdge e) (he : safeEdge edge) :
    ∀ e' ∈ (addEdge g edge).edges, safeEdge e' := by
  unfold addEdge
  by_cases hc : (g.edges.any fun e => e.id == edge.id) = true
  · rw [if_pos hc]
    exact safeEdge_bump _ _ hg
  · rw [if_neg hc]
    intro e' he'
    rcases List.mem_append.mp he' with h1 | h2
    · exact hg e' h1
    · rw [List.mem_singleton.mp h2]
      exact he

theorem safeEdge_addEntityMention (nid pfx : String) (nt : NodeType) (et : EdgeType)
    (ets : String) (st : ℝ) (g : KnowledgeGraph) (lbl : String)
    (hety : et ≠ EdgeType.similarTo)
    (hid : ∀ f t x y : String, generateEdgeId f t ets ≠ generateEdgeId x y "similarTo")
    (hg : ∀ e ∈ g.edges, safeEdge e) :
    ∀ e' ∈ (addEntityMention nid pfx nt et ets st g lbl).edges, safeEdge e' := by
  simp only [addEntityMention]
  apply safeEdge_addEdge
  · simpa [addOrUpdateNode] using hg
  · exact ⟨hety, fun x y => hid _ _ x y⟩

theorem safeEdge_foldl_mention (nid pfx : String) (nt : NodeType) (et : EdgeType)
    (ets : String) (st : ℝ)
    (hety : et ≠ EdgeType.similarTo)
    (hid : ∀ f t x y : String, generateEdgeId f t ets ≠ generateEdgeId x y "similarTo")
    (ls : List String) (g : KnowledgeGraph) (hg : ∀ e ∈ g.edges, safeEdge e) :
    ∀ e' ∈ (ls.foldl (addEntityMention nid pfx nt et ets st) g).edges, safeEdge e' := by
  induction ls generalizing g with
  | nil => exact hg
  | cons lbl rest ih =>
    simp only [List.foldl_cons]
    exact ih _ (safeEdge_addEntityMention nid pfx nt et ets st g lbl hety hid hg)

theorem safeEdge_addEntityNodes (n : Note) (g : KnowledgeGraph)
    (hg : ∀ e ∈ g.edges, safeEdge e) :
    ∀ e' ∈ (addEntityNodes n g).edges, safeEdge e' := by
  unfold addEntityNodes
  cases n.entities with
  | none => exact hg
  | some ents =>
    apply safeEdge_foldl_mention _ _ _ _ _ _ (by simp) projectOf_edgeId_ne_similar
    apply safeEdge_foldl_mention _ _ _ _ _ _ (by simp) mentions_edgeId_ne_similar
    apply safeEdge_foldl_mention _ _ _ _ _ _ (by simp) mentions_edgeId_ne_similar
    exact hg

theorem foldl_addNote_edges (notes : List Note) (g : KnowledgeGraph) :
    (notes.foldl (fun g n => addNoteToGraph n g) g).edges = g.edges := by
  induction notes generalizing g with
  | nil => rfl
  | cons n rest ih => simp only [List.foldl_cons]; rw [ih]; rfl

theorem safeEdge_foldl_entity (notes : List Note) (g : KnowledgeGraph)
    (hg : ∀ e ∈ g.edges, safeEdge e) :
    ∀ e' ∈ (notes.foldl (fun g n => addEntityNodes n g) g).edges, safeEdge e' := by
  induction notes generalizing g with
  | nil => exact hg
  | cons n rest ih =>
    simp only [List.foldl_cons]
    exact ih _ (safeEdge_addEntityNodes n g hg)

theorem bumpEdgeStrength_noop (l : List GraphEdge) (edge : GraphEdge)
    (h : ∀ e ∈ l, e.id = edge.id → ¬ edge.strength > e.strength) :
    bumpEdgeStrength l edge = l := by
  induction l with
  | nil => rfl
  | cons e0 rest ih =>
    simp only [bumpEdgeStrength]
    by_cases hid : e0.id = edge.id
    · rw [if_pos hid, if_neg (h e0 (by simp) hid)]
    · rw [if_neg hid, ih fun e he hh => h e (by simp [he]) hh]

theorem addEdge_existing_noop (g : KnowledgeGraph) (edge : GraphEdge)
    (hmem : (g.edges.any fun e => e.id == edge.id) = true)
    (h : ∀ e ∈ g.edges, e.id = edge.id → ¬ edge.strength > e.strength) :
    addEdge g edge = g := by
  unfold addEdge
  rw [if_pos hmem, bumpEdgeStrength_noop _ _ h]

/-- Both forEach passes of the similarity phase over the two notes, when the
similarity clears the 0.6 threshold: the first pass inserts both directed
edges, the second re-submits them with equal strength and is a no-op. -/
theorem similarity_pass_pair_ge (A B : Note) (ea eb : List ℝ) (s : ℝ)
    (hA : A.embedding = some ea) (hB : B.embedding = some eb)
    (hsim : calculateCosineSimilarity ea eb = some s)
    (hid : A.id ≠ B.id)
    (hdist : generateEdgeId ("note_" ++ A.id) ("note_" ++ B.id) "similarTo" ≠
             generateEdgeId ("note_" ++ B.id) ("note_" ++ A.id) "similarTo")
    (hge : (0.6 : ℝ) ≤ s)
    (g2 : KnowledgeGraph) (hsafe : ∀ e ∈ g2.edges, safeEdge e) :
    List.foldlM (fun g n => addSimilarityEdges n [A, B] g) g2 [A, B] =
      some { g2 with edges := (g2.edges ++
        [{ id := generateEdgeId ("note_" ++ A.id) ("note_" ++ B.id) "similarTo",
           from' := "note_" ++ A.id, to' := "note_" ++ B.id,
           type := EdgeType.similarTo, strength := s }]) ++
        [{ id := generateEdgeId ("note_" ++ B.id) ("note_" ++ A.id) "similarTo",
           from' := "note_" ++ B.id, to' := "note_" ++ A.id,
           type := EdgeType.similarTo, strength := s }] } := by
  have hBA : ¬ (B.id = A.id) := fun hEq => hid hEq.symm
  have hsim2 : calculateCosineSimilarity eb ea = some s := by
    rw [cosSim_comm]; exact hsim
  have hfreshAB : ∀ e ∈ g2.edges,
      e.id ≠ generateEdgeId ("note_" ++ A.id) ("note_" ++ B.id) "similarTo" :=
    fun e he => (hsafe e he).2 _ _
  have hfreshBA : ∀ e ∈ g2.edges,
      e.id ≠ generateEdgeId ("note_" ++ B.id) ("note_" ++ A.id) "similarTo" :=
    fun e he => (hsafe e he).2 _ _
  have hstep1 : addSimilarityEdges A [A, B] g2 =
      some { g2 with edges := (g2.edges ++
        [{ id := generateEdgeId ("note_" ++ A.id) ("note_" ++ B.id) "similarTo",
           from' := "note_" ++ A.id, to' := "note_" ++ B.id,
           type := EdgeType.similarTo, strength := s }]) ++
        [{ id := generateEdgeId ("note_" ++ B.id) ("note_" ++ A.id) "similarTo",
           from' := "note_" ++ B.id, to' := "note_" ++ A.id,
           type := EdgeType.similarTo, strength := s }] } := by
    unfold addSimilarityEdges
    rw [hA]
    simp only [List.foldlM_cons, List.foldlM_nil]
    have hsA : addSimilarityStep A ea ("note_" ++ A.id) g2 A = some g2 := by
      simp only [addSimilarityStep, if_true]
    rw [hsA]
    have hsB : addSimilarityStep A ea ("note_" ++ A.id) g2 B =
        some { g2 with edges := (g2.edges ++
          [{ id := generateEdgeId ("note_" ++ A.id) ("note_" ++ B.id) "similarTo",
             from' := "note_" ++ A.id, to' := "note_" ++ B.id,
             type := EdgeType.similarTo, strength := s }]) ++
          [{ id := generateEdgeId ("note_" ++ B.id) ("note_" ++ A.id) "similarTo",
             from' := "note_" ++ B.id, to' := "note_" ++ A.id,
             type := EdgeType.similarTo, strength := s }] } := by
      simp only [addSimilarityStep, hB, hsim, if_neg hBA, if_pos hge]
      rw [addEdge_fresh g2
        { id := generateEdgeId ("note_" ++ A.id) ("note_" ++ B.id) "similarTo",
          from' := "note_" ++ A.id, to' := "note_" ++ B.id,
          type := EdgeType.similarTo, strength := s }
        (fun e he => (hsafe e he).2 _ _)]
      rw [addEdge_fresh
        { g2 with edges := g2.edges ++
          [{ id := generateEdgeId ("note_" ++ A.id) ("note_" ++ B.id) "similarTo",
             from' := "note_" ++ A.id, to' := "note_" ++ B.id,
             type := EdgeType.similarTo, strength := s }] }
        { id := generateEdgeId ("note_" ++ B.id) ("note_" ++ A.id) "similarTo",
          from' := "note_" ++ B.id, to' := "note_" ++ A.id,
          type := EdgeType.similarTo, strength := s }]
      intro e he
      rcases List.mem_append.mp he with h1 | h2
      · exact hfreshBA e h1
      · rw [List.mem_singleton.mp h2]
        exact fun hEq => hdist hEq
    simp only [Option.bind_eq_bind, Option.some_bind']
    rw [hsB]
    simp only [Option.bind_eq_bind, Option.some_bind']
    rfl
  have hmid : ∀ e ∈ ((g2.edges ++
      [{ id := generateEdgeId ("note_" ++ A.id) ("note_" ++ B.id) "similarTo",
         from' := "note_" ++ A.id, to' := "note_" ++ B.id,
         type := EdgeType.similarTo, strength := s }]) ++
      [{ id := generateEdgeId ("note_" ++ B.id) ("note_" ++ A.id) "similarTo",
         from' := "note_" ++ B.id, to' := "note_" ++ A.id,
         type := EdgeType.similarTo, strength := s }]), e.id =
           generateEdgeId ("note_" ++ B.id) ("note_" ++ A.id) "similarTo" →
           ¬ (s : ℝ) > e.strength := by
    intro e he hEq
    rcases List.mem_append.mp he with h12 | h3
    · rcases List.mem_append.mp h12 with h1 | h2
      · exact absurd hEq (hfreshBA e h1)
      · rw [List.mem_singleton.mp h2] at hEq
        exact absurd hEq hdist
    · rw [List.mem_singleton.mp h3]
      exact lt_irrefl s
  have hmid2 : ∀ e ∈ ((g2.edges ++
      [{ id := generateEdgeId ("note_" ++ A.id) ("note_" ++ B.id) "similarTo",
         from' := "note_" ++ A.id, to' := "note_" ++ B.id,
         type := EdgeType.similarTo, strength := s }]) ++
      [{ id := generateEdgeId ("note_" ++ B.id) ("note_" ++ A.id) "similarTo",
         from' := "note_" ++ B.id, to' := "note_" ++ A.id,
         type := EdgeType.similarTo, strength := s }]), e.id =
           generateEdgeId ("note_" ++ A.id) ("note_" ++ B.id) "similarTo" →
           ¬ (s : ℝ) > e.strength := by
    intro e he hEq
    rcases List.mem_append.mp he with h12 | h3
    · rcases List.mem_append.mp h12 with h1 | h2
      · exact absurd hEq (hfreshAB e h1)
      · rw [List.mem_singleton.mp h2]
        exact lt_irrefl s
    · rw [List.mem_singleton.mp h3] at hEq
      exact absurd hEq.symm hdist
  have hstep2 : addSimilarityEdges B [A, B]
      { g2 with edges := (g2.edges ++
        [{ id := generateEdgeId ("note_" ++ A.id) ("note_" ++ B.id) "similarTo",
           from' := "note_" ++ A.id, to' := "note_" ++ B.id,
           type := EdgeType.similarTo, strength := s }]) ++
        [{ id := generateEdgeId ("note_" ++ B.id) ("note_" ++ A.id) "similarTo",
           from' := "note_" ++ B.id, to' := "note_" ++ A.id,
           type := EdgeType.similarTo, strength := s }] } =
      some { g2 with edges := (g2.edges ++
        [{ id := generateEdgeId ("note_" ++ A.id) ("note_" ++ B.id) "similarTo",
           from' := "note_" ++ A.id, to' := "note_" ++ B.id,
           type := EdgeType.similarTo, strength := s }]) ++
        [{ id := generateEdgeId ("note_" ++ B.id) ("note_" ++ A.id) "similarTo",
           from' := "note_" ++ B.id, to' := "note_" ++ A.id,
           type := EdgeType.similarTo, strength := s }] } := by
    unfold addSimilarityEdges
    rw [hB]
    simp only [List.foldlM_cons, List.foldlM_nil]
    have hsA : addSimilarityStep B eb ("note_" ++ B.id)
        { g2 with edges := (g2.edges ++
          [{ id := generateEdgeId ("note_" ++ A.id) ("note_" ++ B.id) "similarTo",
             from' := "note_" ++ A.id, to' := "note_" ++ B.id,
             type := EdgeType.similarTo, strength := s }]) ++
          [{ id := generateEdgeId ("note_" ++ B.id) ("note_" ++ A.id) "similarTo",
             from' := "note_" ++ B.id, to' := "note_" ++ A.id,
             type := EdgeType.similarTo, strength := s }] } A =
        some { g2 with edges := (g2.edges ++
          [{ id := generateEdgeId ("note_" ++ A.id) ("note_" ++ B.id) "similarTo",
             from' := "note_" ++ A.id, to' := "note_" ++ B.id,
             type := EdgeType.similarTo, strength := s }]) ++
          [{ id := generateEdgeId ("note_" ++ B.id) ("note_" ++ A.id) "similarTo",
             from' := "note_" ++ B.id, to' := "note_" ++ A.id,
             type := EdgeType.similarTo, strength := s }] } := by
      simp only [addSimilarityStep, hA, hsim2, if_neg hid, if_pos hge]
      rw [addEdge_existing_noop
        { g2 with edges := (g2.edges ++
          [{ id := generateEdgeId ("note_" ++ A.id) ("note_" ++ B.id) "similarTo",
             from' := "note_" ++ A.id, to' := "note_" ++ B.id,
             type := EdgeType.similarTo, strength := s }]) ++
          [{ id := generateEdgeId ("note_" ++ B.id) ("note_" ++ A.id) "similarTo",
             from' := "note_" ++ B.id, to' := "note_" ++ A.id,
             type := EdgeType.similarTo, strength := s }] }
        { id := generateEdgeId ("note_" ++ B.id) ("note_" ++ A.id) "similarTo",
          from' := "note_" ++ B.id, to' := "note_" ++ A.id,
          type := EdgeType.similarTo, strength := s }
        (List.any_eq_true.mpr
          ⟨{ id := generateEdgeId ("note_" ++ B.id) ("note_" ++ A.id) "similarTo",
             from' := "note_" ++ B.id, to' := "note_" ++ A.id,
             type := EdgeType.similarTo, strength := s },
           List.mem_append.mpr (Or.inr (List.mem_singleton.mpr rfl)), by simp⟩) hmid]
      rw [addEdge_existing_noop
        { g2 with edges := (g2.edges ++
          [{ id := generateEdgeId ("note_" ++ A.id) ("note_" ++ B.id) "similarTo",
             from' := "note_" ++ A.id, to' := "note_" ++ B.id,
             type := EdgeType.similarTo, strength := s }]) ++
          [{ id := generateEdgeId ("note_" ++ B.id) ("note_" ++ A.id) "similarTo",
             from' := "note_" ++ B.id, to' := "note_" ++ A.id,
             type := EdgeType.similarTo, strength := s }] }
        { id := generateEdgeId ("note_" ++ A.id) ("note_" ++ B.id) "similarTo",
          from' := "note_" ++ A.id, to' := "note_" ++ B.id,
          type := EdgeType.similarTo, strength := s }
        (List.any_eq_true.mpr
          ⟨{ id := generateEdgeId ("note_" ++ A.id) ("note_" ++ B.id) "similarTo",
             from' := "note_" ++ A.id, to' := "note_" ++ B.id,
             type := EdgeType.similarTo, strength := s },
           List.mem_append.mpr (Or.inl (List.mem_append.mpr
            (Or.inr (List.mem_singleton.mpr rfl)))), by simp⟩) hmid2]
    rw [hsA]
    simp only [Option.bind_eq_bind, Option.some_bind']
    have hsB : addSimilarityStep B eb ("note_" ++ B.id)
        { g2 with edges := (g2.edges ++
          [{ id := generateEdgeId ("note_" ++ A.id) ("note_" ++ B.id) "similarTo",
             from' := "note_" ++ A.id, to' := "note_" ++ B.id,
             type := EdgeType.similarTo, strength := s }]) ++
          [{ id := generateEdgeId ("note_" ++ B.id) ("note_" ++ A.id) "similarTo",
             from' := "note_" ++ B.id, to' := "note_" ++ A.id,
             type := EdgeType.similarTo, strength := s }] } B =
        some { g2 with edges := (g2.edges ++
          [{ id := generateEdgeId ("note_" ++ A.id) ("note_" ++ B.id) "similarTo",
             from' := "note_" ++ A.id, to' := "note_" ++ B.id,
             type := EdgeType.similarTo, strength := s }]) ++
          [{ id := generateEdgeId ("note_" ++ B.id) ("note_" ++ A.id) "similarTo",
             from' := "note_" ++ B.id, to' := "note_" ++ A.id,
             type := EdgeType.similarTo, strength := s }] } := by
      simp only [addSimilarityStep, if_true]
    rw [hsB]
    simp only [Option.bind_eq_bind, Option.some_bind']
    rfl
  simp only [List.foldlM_cons, List.foldlM_nil]
  rw [hstep1]
  simp only [Option.bind_eq_bind, Option.some_bind']
  rw [hstep2]
  simp only [Option.bind_eq_bind, Option.some_bind']
  rfl

/-- Both similarity passes when the similarity is below the threshold: the
graph is unchanged. -/
theorem similarity_pass_pair_lt (A B : Note) (ea eb : List ℝ) (s : ℝ)
    (hA : A.embedding = some ea) (hB : B.embedding = some eb)
    (hsim : calculateCosineSimilarity ea eb = some s)
    (hid : A.id ≠ B.id)
    (hlt : s < (0.6 : ℝ))
    (g2 : KnowledgeGraph) :
    List.foldlM (fun g n => addSimilarityEdges n [A, B] g) g2 [A, B] = some g2 := by
  have hBA : ¬ (B.id = A.id) := fun hEq => hid hEq.symm
  have hnge : ¬ ((0.6 : ℝ) ≤ s) := not_le.mpr hlt
  have hsim2 : calculateCosineSimilarity eb ea = some s := by
    rw [cosSim_comm]; exact hsim
  have hstep1 : addSimilarityEdges A [A, B] g2 = some g2 := by
    unfold addSimilarityEdges
    rw [hA]
    simp only [List.foldlM_cons, List.foldlM_nil]
    have hsA : addSimilarityStep A ea ("note_" ++ A.id) g2 A = some g2 := by
      simp only [addSimilarityStep, if_true]
    have hsB : addSimilarityStep A ea ("note_" ++ A.id) g2 B = some g2 := by
      simp only [addSimilarityStep, hB, hsim, if_neg hBA, if_neg hnge]
    rw [hsA]
    simp only [Option.bind_eq_bind, Option.some_bind']
    rw [hsB]
    simp only [Option.bind_eq_bind, Option.some_bind']
    rfl
  have hstep2 : addSimilarityEdges B [A, B] g2 = some g2 := by
    unfold addSimilarityEdges
    rw [hB]
    simp only [List.foldlM_cons, List.foldlM_nil]
    have hsA : addSimilarityStep B eb ("note_" ++ B.id) g2 A = some g2 := by
      simp only [addSimilarityStep, hA, hsim2, if_neg hid, if_neg hnge]
    have hsB : addSimilarityStep B eb ("note_" ++ B.id) g2 B = some g2 := by
      simp only [addSimilarityStep, if_true]
    rw [hsA]
    simp only [Option.bind_eq_bind, Option.some_bind']
    rw [hsB]
    simp only [Option.bind_eq_bind, Option.some_bind']
    rfl
  simp only [List.foldlM_cons, List.foldlM_nil]
  rw [hstep1]
  simp only [Option.bind_eq_bind, Option.some_bind']
  rw [hstep2]
  simp only [Option.bind_eq_bind, Option.some_bind']
  rfl

/-- The similarity passes when the two derived edge ids collide (possible for
ids like "x_note_x" vs "x"): the second `addEdge` sees the first edge's id
and only one `similarTo` edge is ever stored. -/
theorem similarity_pass_pair_collide (A B : Note) (ea eb : List ℝ) (s : ℝ)
    (hA : A.embedding = some ea) (hB : B.embedding = some eb)
    (hsim : calculateCosineSimilarity ea eb = some s)
    (hid : A.id ≠ B.id)
    (hcol : generateEdgeId ("note_" ++ A.id) ("note_" ++ B.id) "similarTo" =
            generateEdgeId ("note_" ++ B.id) ("note_" ++ A.id) "similarTo")
    (hge : (0.6 : ℝ) ≤ s)
    (g2 : KnowledgeGraph) (hsafe : ∀ e ∈ g2.edges, safeEdge e) :
    List.foldlM (fun g n => addSimilarityEdges n [A, B] g) g2 [A, B] =
      some { g2 with edges := g2.edges ++
        [{ id := generateEdgeId ("note_" ++ A.id) ("note_" ++ B.id) "similarTo",
           from' := "note_" ++ A.id, to' := "note_" ++ B.id,
           type := EdgeType.similarTo, strength := s }] } := by
  have hBA : ¬ (B.id = A.id) := fun hEq => hid hEq.symm
  have hsim2 : calculateCosineSimilarity eb ea = some s := by
    rw [cosSim_comm]; exact hsim
  have hfreshAB : ∀ e ∈ g2.edges,
      e.id ≠ generateEdgeId ("note_" ++ A.id) ("note_" ++ B.id) "similarTo" :=
    fun e he => (hsafe e he).2 _ _
  have hmidA : ∀ e ∈ (g2.edges ++
      [{ id := generateEdgeId ("note_" ++ A.id) ("note_" ++ B.id) "similarTo",
         from' := "note_" ++ A.id, to' := "note_" ++ B.id,
         type := EdgeType.similarTo, strength := s }]), e.id =
           generateEdgeId ("note_" ++ A.id) ("note_" ++ B.id) "similarTo" →
           ¬ (s : ℝ) > e.strength := by
    intro e he hEq
    rcases List.mem_append.mp he with h1 | h2
    · exact absurd hEq (hfreshAB e h1)
    · rw [List.mem_singleton.mp h2]
      exact lt_irrefl s
  have hmidB : ∀ e ∈ (g2.edges ++
      [{ id := generateEdgeId ("note_" ++ A.id) ("note_" ++ B.id) "similarTo",
         from' := "note_" ++ A.id, to' := "note_" ++ B.id,
         type := EdgeType.similarTo, strength := s }]), e.id =
           generateEdgeId ("note_" ++ B.id) ("note_" ++ A.id) "similarTo" →
           ¬ (s : ℝ) > e.strength := by
    intro e he hEq
    rcases List.mem_append.mp he with h1 | h2
    · rw [← hcol] at hEq
      exact absurd hEq (hfreshAB e h1)
    · rw [List.mem_singleton.mp h2]
      exact lt_irrefl s
  have hmem : ((g2.edges ++
      ([{ id := generateEdgeId ("note_" ++ A.id) ("note_" ++ B.id) "similarTo",
          from' := "note_" ++ A.id, to' := "note_" ++ B.id,
          type := EdgeType.similarTo, strength := s }] : List GraphEdge)).any
        fun e => e.id == generateEdgeId ("note_" ++ B.id) ("note_" ++ A.id) "similarTo") =
        true :=
    List.any_eq_true.mpr
      ⟨({ id := generateEdgeId ("note_" ++ A.id) ("note_" ++ B.id) "similarTo",
          from' := "note_" ++ A.id, to' := "note_" ++ B.id,
          type := EdgeType.similarTo, strength := s } : GraphEdge),
       List.mem_append.mpr (Or.inr (List.mem_singleton.mpr rfl)), by simp [hcol]⟩
  have hmem2 : ((g2.edges ++
      ([{ id := generateEdgeId ("note_" ++ A.id) ("note_" ++ B.id) "similarTo",
          from' := "note_" ++ A.id, to' := "note_" ++ B.id,
          type := EdgeType.similarTo, strength := s }] : List GraphEdge)).any
        fun e => e.id == generateEdgeId ("note_" ++ A.id) ("note_" ++ B.id) "similarTo") =
        true :=
    List.any_eq_true.mpr
      ⟨({ id := generateEdgeId ("note_" ++ A.id) ("note_" ++ B.id) "similarTo",
          from' := "note_" ++ A.id, to' := "note_" ++ B.id,
          type := EdgeType.similarTo, strength := s } : GraphEdge),
       List.mem_append.mpr (Or.inr (List.mem_singleton.mpr rfl)), by simp⟩
  have hstep1 : addSimilarityEdges A [A, B] g2 =
      some { g2 with edges := g2.edges ++
        [{ id := generateEdgeId ("note_" ++ A.id) ("note_" ++ B.id) "similarTo",
           from' := "note_" ++ A.id, to' := "note_" ++ B.id,
           type := EdgeType.similarTo, strength := s }] } := by
    unfold addSimilarityEdges
    rw [hA]
    simp only [List.foldlM_cons, List.foldlM_nil]
    have hsA : addSimilarityStep A ea ("note_" ++ A.id) g2 A = some g2 := by
      simp only [addSimilarityStep, if_true]
    rw [hsA]
    simp only [Option.bind_eq_bind, Option.some_bind']
    have hsB : addSimilarityStep A ea ("note_" ++ A.id) g2 B =
        some { g2 with edges := g2.edges ++
          [{ id := generateEdgeId ("note_" ++ A.id) ("note_" ++ B.id) "similarTo",
             from' := "note_" ++ A.id, to' := "note_" ++ B.id,
             type := EdgeType.similarTo, strength := s }] } := by
      simp only [addSimilarityStep, hB, hsim, if_neg hBA, if_pos hge]
      rw [addEdge_fresh g2
        { id := generateEdgeId ("note_" ++ A.id) ("note_" ++ B.id) "similarTo",
          from' := "note_" ++ A.id, to' := "note_" ++ B.id,
          type := EdgeType.similarTo, strength := s }
        (fun e he => (hsafe e he).2 _ _)]
      rw [addEdge_existing_noop
        { g2 with edges := g2.edges ++
          [{ id := generateEdgeId ("note_" ++ A.id) ("note_" ++ B.id) "similarTo",
             from' := "note_" ++ A.id, to' := "note_" ++ B.id,
             type := EdgeType.similarTo, strength := s }] }
        { id := generateEdgeId ("note_" ++ B.id) ("note_" ++ A.id) "similarTo",
          from' := "note_" ++ B.id, to' := "note_" ++ A.id,
          type := EdgeType.similarTo, strength := s }
        hmem hmidB]
    rw [hsB]
    simp only [Option.bind_eq_bind, Option.some_bind']
    rfl
  have hstep2 : addSimilarityEdges B [A, B]
      { g2 with edges := g2.edges ++
        [{ id := generateEdgeId ("note_" ++ A.id) ("note_" ++ B.id) "similarTo",
           from' := "note_" ++ A.id, to' := "note_" ++ B.id,
           type := EdgeType.similarTo, strength := s }] } =
      some { g2 with edges := g2.edges ++
        [{ id := generateEdgeId ("note_" ++ A.id) ("note_" ++ B.id) "similarTo",
           from' := "note_" ++ A.id, to' := "note_" ++ B.id,
           type := EdgeType.similarTo, strength := s }] } := by
    unfold addSimilarityEdges
    rw [hB]
    simp only [List.foldlM_cons, List.foldlM_nil]
    have hsA : addSimilarityStep B eb ("note_" ++ B.id)
        { g2 with edges := g2.edges ++
          [{ id := generateEdgeId ("note_" ++ A.id) ("note_" ++ B.id) "similarTo",
             from' := "note_" ++ A.id, to' := "note_" ++ B.id,
             type := EdgeType.similarTo, strength := s }] } A =
        some { g2 with edges := g2.edges ++
          [{ id := generateEdgeId ("note_" ++ A.id) ("note_" ++ B.id) "similarTo",
             from' := "note_" ++ A.id, to' := "note_" ++ B.id,
             type := EdgeType.similarTo, strength := s }] } := by
      simp only [addSimilarityStep, hA, hsim2, if_neg hid, if_pos hge]
      rw [addEdge_existing_noop
        { g2 with edges := g2.edges ++
          [{ id := generateEdgeId ("note_" ++ A.id) ("note_" ++ B.id) "similarTo",
             from' := "note_" ++ A.id, to' := "note_" ++ B.id,
             type := EdgeType.similarTo, strength := s }] }
        { id := generateEdgeId ("note_" ++ B.id) ("note_" ++ A.id) "similarTo",
          from' := "note_" ++ B.id, to' := "note_" ++ A.id,
          type := EdgeType.similarTo, strength := s }
        hmem hmidB]
      rw [addEdge_existing_noop
        { g2 with edges := g2.edges ++
          [{ id := generateEdgeId ("note_" ++ A.id) ("note_" ++ B.id) "similarTo",
             from' := "note_" ++ A.id, to' := "note_" ++ B.id,
             type := EdgeType.similarTo, strength := s }] }
        { id := generateEdgeId ("note_" ++ A.id) ("note_" ++ B.id) "similarTo",
          from' := "note_" ++ A.id, to' := "note_" ++ B.id,
          type := EdgeType.similarTo, strength := s }
        hmem2 hmidA]
    rw [hsA]
    simp only [Option.bind_eq_bind, Option.some_bind']
    have hsB : addSimilarityStep B eb ("note_" ++ B.id)
        { g2 with edges := g2.edges ++
          [{ id := generateEdgeId ("note_" ++ A.id) ("note_" ++ B.id) "similarTo",
             from' := "note_" ++ A.id, to' := "note_" ++ B.id,
             type := EdgeType.similarTo, strength := s }] } B =
        some { g2 with edges := g2.edges ++
          [{ id := generateEdgeId ("note_" ++ A.id) ("note_" ++ B.id) "similarTo",
             from' := "note_" ++ A.id, to' := "note_" ++ B.id,
             type := EdgeType.similarTo, strength := s }] } := by
      simp only [addSimilarityStep, if_true]
    rw [hsB]
    simp only [Option.bind_eq_bind, Option.some_bind']
    rfl
  simp only [List.foldlM_cons, List.foldlM_nil]
  rw [hstep1]
  simp only [Option.bind_eq_bind, Option.some_bind']
  rw [hstep2]
  simp only [Option.bind_eq_bind, Option.some_bind']
  rfl

/-- C1 (amended): for two notes with embeddings whose cosine similarity is
defined, provided the two derived edge identifiers
`edge_similarTo_note_{A.id}_note_{B.id}` and
`edge_similarTo_note_{B.id}_note_{A.id}` are distinct strings, building the
graph from `{A, B}` yields exactly the two directed `similarTo` edges with
strength equal to the similarity when it is ≥ 0.6, and no `similarTo` edge
when it is < 0.6. -/
theorem C1_similarity_edge_pair (A B : Note) (ea eb : List ℝ) (s : ℝ)
    (hA : A.embedding = some ea) (hB : B.embedding = some eb)
    (hsim : calculateCosineSimilarity ea eb = some s)
    (hdist : generateEdgeId ("note_" ++ A.id) ("note_" ++ B.id) "similarTo" ≠
             generateEdgeId ("note_" ++ B.id) ("note_" ++ A.id) "similarTo") :
    ((0.6 : ℝ) ≤ s → ∃ g, buildGraphFromNotes [A, B] none = some g ∧
      (g.edges.filter fun e => e.type == EdgeType.similarTo) =
        [{ id := generateEdgeId ("note_" ++ A.id) ("note_" ++ B.id) "similarTo",
           from' := "note_" ++ A.id, to' := "note_" ++ B.id,
           type := EdgeType.similarTo, strength := s },
         { id := generateEdgeId ("note_" ++ B.id) ("note_" ++ A.id) "similarTo",
           from' := "note_" ++ B.id, to' := "note_" ++ A.id,
           type := EdgeType.similarTo, strength := s }]) ∧
    (s < (0.6 : ℝ) → ∃ g, buildGraphFromNotes [A, B] none = some g ∧
      (g.edges.filter fun e => e.type == EdgeType.similarTo) = []) := by
  have hid : A.id ≠ B.id := fun h => hdist (by rw [h])
  have hbuild : buildGraphFromNotes [A, B] none =
      List.foldlM (fun g n => addSimilarityEdges n [A, B] g)
        (List.foldl (fun g n => addEntityNodes n g)
          (List.foldl (fun g n => addNoteToGraph n g)
            ({ nodes := [], edges := [] } : KnowledgeGraph) [A, B]) [A, B]) [A, B] := rfl
  have hg1edges : (List.foldl (fun g n => addNoteToGraph n g)
      ({ nodes := [], edges := [] } : KnowledgeGraph) [A, B]).edges = [] :=
    foldl_addNote_edges [A, B] _
  have hsafe : ∀ e ∈ (List.foldl (fun g n => addEntityNodes n g)
      (List.foldl (fun g n => addNoteToGraph n g)
        ({ nodes := [], edges := [] } : KnowledgeGraph) [A, B]) [A, B]).edges,
      safeEdge e := by
    apply safeEdge_foldl_entity
    intro e he
    rw [hg1edges] at he
    simp at he
  obtain ⟨g2, hg2⟩ : ∃ g2, List.foldl (fun g n => addEntityNodes n g)
      (List.foldl (fun g n => addNoteToGraph n g)
        ({ nodes := [], edges := [] } : KnowledgeGraph) [A, B]) [A, B] = g2 := ⟨_, rfl⟩
  rw [hg2] at hsafe hbuild
  constructor
  · intro hge
    refine ⟨{ g2 with edges := (g2.edges ++
      [{ id := generateEdgeId ("note_" ++ A.id) ("note_" ++ B.id) "similarTo",
         from' := "note_" ++ A.id, to' := "note_" ++ B.id,
         type := EdgeType.similarTo, strength := s }]) ++
      [{ id := generateEdgeId ("note_" ++ B.id) ("note_" ++ A.id) "similarTo",
         from' := "note_" ++ B.id, to' := "note_" ++ A.id,
         type := EdgeType.similarTo, strength := s }] }, ?_, ?_⟩
    · rw [hbuild]
      exact similarity_pass_pair_ge A B ea eb s hA hB hsim hid hdist hge g2 hsafe
    · simp only [List.filter_append]
      rw [List.filter_eq_nil_iff.mpr fun e he => by simpa using (hsafe e he).1]
      simp
  · intro hlt
    refine ⟨g2, ?_, ?_⟩
    · rw [hbuild]
      exact similarity_pass_pair_lt A B ea eb s hA hB hsim hid hlt g2
    · exact List.filter_eq_nil_iff.mpr fun e he => by simpa using (hsafe e he).1

/-- A note whose id embeds the `note_` separator pattern. -/
def collideNoteA : Note :=
  { id := "x_note_x", content := "a", category := NoteCategory.info, createdAt := 0,
    embedding := some [1] }

/-- A note whose id makes both derived similarity-edge ids coincide with
`collideNoteA`'s. -/
def collideNoteB : Note :=
  { id := "x", content := "b", category := NoteCategory.info, createdAt := 0,
    embedding := some [1] }

/-- Counterexample to C1 as stated: two notes with identical embeddings
(similarity 1 ≥ 0.6) whose ids make the two derived edge ids collide — the
built graph holds exactly one `similarTo` edge, not two. -/
theorem C1_counterexample :
    calculateCosineSimilarity [(1 : ℝ)] [1] = some 1 ∧
    (∃ g, buildGraphFromNotes [collideNoteA, collideNoteB] none = some g ∧
      (g.edges.filter fun e => e.type == EdgeType.similarTo).length = 1) := by
  have hsim : calculateCosineSimilarity [(1 : ℝ)] [1] = some 1 :=
    cosSim_self [1] (magnitude_ne_zero_of_pos _ (by norm_num [sumSq]))
  refine ⟨hsim, ?_⟩
  have hbuild : buildGraphFromNotes [collideNoteA, collideNoteB] none =
      List.foldlM (fun g n => addSimilarityEdges n [collideNoteA, collideNoteB] g)
        (List.foldl (fun g n => addEntityNodes n g)
          (List.foldl (fun g n => addNoteToGraph n g)
            ({ nodes := [], edges := [] } : KnowledgeGraph)
            [collideNoteA, collideNoteB]) [collideNoteA, collideNoteB])
        [collideNoteA, collideNoteB] := rfl
  have hg1edges : (List.foldl (fun g n => addNoteToGraph n g)
      ({ nodes := [], edges := [] } : KnowledgeGraph) [collideNoteA, collideNoteB]).edges =
      [] := foldl_addNote_edges _ _
  have hsafe : ∀ e ∈ (List.foldl (fun g n => addEntityNodes n g)
      (List.foldl (fun g n => addNoteToGraph n g)
        ({ nodes := [], edges := [] } : KnowledgeGraph)
        [collideNoteA, collideNoteB]) [collideNoteA, collideNoteB]).edges, safeEdge e := by
    apply safeEdge_foldl_entity
    intro e he
    rw [hg1edges] at he
    simp at he
  obtain ⟨g2, hg2⟩ : ∃ g2, List.foldl (fun g n => addEntityNodes n g)
      (List.foldl (fun g n => addNoteToGraph n g)
        ({ nodes := [], edges := [] } : KnowledgeGraph)
        [collideNoteA, collideNoteB]) [collideNoteA, collideNoteB] = g2 := ⟨_, rfl⟩
  rw [hg2] at hsafe hbuild
  refine ⟨{ g2 with edges := g2.edges ++
    [{ id := generateEdgeId ("note_" ++ collideNoteA.id) ("note_" ++ collideNoteB.id)
         "similarTo",
       from' := "note_" ++ collideNoteA.id, to' := "note_" ++ collideNoteB.id,
       type := EdgeType.similarTo, strength := 1 }] }, ?_, ?_⟩
  · rw [hbuild]
    exact similarity_pass_pair_collide collideNoteA collideNoteB [1] [1] 1 rfl rfl hsim
      (by decide) (by decide) (by norm_num) g2 hsafe
  · simp only [List.filter_append]
    rw [List.filter_eq_nil_iff.mpr fun e he => by simpa using (hsafe e he).1]
    simp

/-- Witness for C1 at concrete notes: identical unit embeddings (similarity
1) produce the two edges, orthogonal embeddings (similarity 0) produce
none. -/
theorem C1_witness :
    (∃ g, buildGraphFromNotes
        [{ id := "1", content := "a", category := NoteCategory.info, createdAt := 0,
           embedding := some [1] },
         { id := "2", content := "b", category := NoteCategory.info, createdAt := 0,
           embedding := some [1] }] none = some g ∧
      (g.edges.filter fun e => e.type == EdgeType.similarTo) =
        [{ id := generateEdgeId ("note_" ++ "1") ("note_" ++ "2") "similarTo",
           from' := "note_" ++ "1", to' := "note_" ++ "2",
           type := EdgeType.similarTo, strength := 1 },
         { id := generateEdgeId ("note_" ++ "2") ("note_" ++ "1") "similarTo",
           from' := "note_" ++ "2", to' := "note_" ++ "1",
           type := EdgeType.similarTo, strength := 1 }]) ∧
    (∃ g, buildGraphFromNotes
        [{ id := "1", content := "a", category := NoteCategory.info, createdAt := 0,
           embedding := some [1, 0] },
         { id := "2", content := "b", category := NoteCategory.info, createdAt := 0,
           embedding := some [0, 1] }] none = some g ∧
      (g.edges.filter fun e => e.type == EdgeType.similarTo) = []) := by
  have hm1 : magnitude [(1 : ℝ), 0] = 1 := by
    unfold magnitude
    rw [show sumSq [(1 : ℝ), 0] = 1 by norm_num [sumSq], Real.sqrt_one]
  have hm2 : magnitude [(0 : ℝ), 1] = 1 := by
    unfold magnitude
    rw [show sumSq [(0 : ℝ), 1] = 1 by norm_num [sumSq], Real.sqrt_one]
  have hsim1 : calculateCosineSimilarity [(1 : ℝ)] [1] = some 1 :=
    cosSim_self [1] (magnitude_ne_zero_of_pos _ (by norm_num [sumSq]))
  have hsim0 : calculateCosineSimilarity [(1 : ℝ), 0] [0, 1] = some 0 := by
    unfold calculateCosineSimilarity
    rw [if_neg (by simp), if_neg (by rw [hm1, hm2]; norm_num)]
    rw [hm1, hm2]
    norm_num [dotList, List.zip_cons_cons]
  constructor
  · exact (C1_similarity_edge_pair _ _ [1] [1] 1 rfl rfl hsim1 (by decide)).1 (by norm_num)
  · exact (C1_similarity_edge_pair _ _ [1, 0] [0, 1] 0 rfl rfl hsim0 (by decide)).2
      (by norm_num)

/-! ## Automation engine (automation.ts): duplicate detection and merge -/

structure DuplicateGroup where
  notes : List Note
  similarity : ℝ
  reason : String

structure MergeSuggestion where
  notes : List Note
  mergedContent : String
  confidence : ℝ
  reason : String

/-- The `for (const otherNote of allNotes)` loop of `detectDuplicates`:
collect, in order, the other notes whose similarity reaches the threshold.
A similarity call on mismatched vectors throws (`none`). -/
noncomputable def collectSimilar (note : Note) (emb : List ℝ) (threshold : ℝ) :
    List Note → Option (List Note)
  | [] => some []
  | other :: rest =>
    if other.id = note.id then collectSimilar note emb threshold rest
    else
      match other.embedding with
      | none => collectSimilar note emb threshold rest
      | some oemb =>
        match calculateCosineSimilarity emb oemb with
        | none => none
        | some similarity =>
          match collectSimilar note emb threshold rest with
          | none => none
          | some tail =>
            some (if threshold ≤ similarity then other :: tail else tail)

/-- The similarities recomputed for `Math.max(...similarNotes.map(...))`. -/
noncomputable def simList (emb : List ℝ) : List Note → Option (List ℝ)
  | [] => some []
  | n :: rest =>
    match n.embedding with
    | none => none
    | some oemb =>
      match calculateCosineSimilarity emb oemb with
      | none => none
      | some s => (simList emb rest).map fun tail => s :: tail

/-- `Math.max(x, ...)` over a nonempty argument list (the empty case is
unreachable behind the source's nonemptiness guard). -/
noncomputable def listMax : List ℝ → ℝ
  | [] => 0
  | [x] => x
  | x :: y :: rest => max x (listMax (y :: rest))

/-- `detectDuplicates(note, allNotes, threshold)`.  The reason string's
percentage is always 0 because the source reads `duplicates[0]` before the
push (`NaN || 0`). -/
noncomputable def detectDuplicates (note : Note) (allNotes : List Note)
    (threshold : ℝ) : Option (List DuplicateGroup) :=
  match note.embedding with
  | none => some []
  | some emb =>
    match collectSimilar note emb threshold allNotes with
    | none => none
    | some similarNotes =>
      if 0 < similarNotes.length then
        match simList emb similarNotes with
        | none => none
        | some sims =>
          some [{ notes := note :: similarNotes, similarity := listMax sims,
                  reason := toString similarNotes.length ++
                    " sehr ähnliche Notizen gefunden (0% Übereinstimmung)" }]
      else some []

/-- JS `Set` built by insertion: keep the first occurrence of each element,
in insertion order. -/
def jsSetInsert {α : Type} [BEq α] (acc : List α) (x : α) : List α :=
  if acc.contains x then acc else acc ++ [x]

/-- The element list of `new Set(l)`. -/
def jsSetList {α : Type} [BEq α] (l : List α) : List α :=
  l.foldl jsSetInsert []

/-- `suggestMergeNotes(duplicates)`: sort by creation time (a stable
comparator sort), dedupe the trimmed contents, and propose the merge with
confidence 0.95 on a single distinct content and 0.75 otherwise. -/
noncomputable def suggestMergeNotes (duplicates : List Note) : Option MergeSuggestion :=
  if duplicates.length < 2 then none
  else
    let sorted := List.insertionSort (fun a b : Note => a.createdAt ≤ b.createdAt) duplicates
    let uniqueContents := jsSetList (sorted.map fun n => jsTrim n.content)
    some { notes := sorted
           mergedContent := String.intercalate "\n\n---\n\n" uniqueContents
           confidence := if uniqueContents.length = 1 then 0.95 else 0.75
           reason := if uniqueContents.length = 1 then
               "Identischer Inhalt - sehr wahrscheinlich Duplikat"
             else "Sehr ähnlicher Inhalt - könnte zusammengeführt werden" }

theorem insertionSort_pair {α : Type} (r : α → α → Prop) [DecidableRel r] (a b : α) :
    List.insertionSort r [a, b] = if r a b then [a, b] else [b, a] := by
  by_cases h : r a b <;> simp [List.insertionSort, List.orderedInsert, h]

theorem jsSetList_pair (x y : String) :
    jsSetList [x, y] = if x = y then [x] else [x, y] := by
  by_cases h : x = y
  · simp [jsSetList, jsSetInsert, List.contains, List.elem, h]
  · have hb : (y == x) = false := beq_eq_false_iff_ne.mpr fun hh => h hh.symm
    simp [jsSetList, jsSetInsert, List.contains, List.elem, hb, h]

theorem listMax_single (x : ℝ) : listMax [x] = x := rfl

/-- `suggestMergeNotes` on a two-note group: confidence 0.95 exactly when the
trimmed contents coincide, 0.75 otherwise. -/
theorem suggestMergeNotes_pair_confidence (a b : Note) :
    (suggestMergeNotes [a, b]).map (fun m => m.confidence) =
      some (if jsTrim a.content = jsTrim b.content then (0.95 : ℝ) else 0.75) := by
  unfold suggestMergeNotes
  rw [if_neg (by simp)]
  rw [insertionSort_pair]
  by_cases hord : a.createdAt ≤ b.createdAt
  · rw [if_pos hord]
    simp only [List.map_cons, List.map_nil, jsSetList_pair]
    by_cases heq : jsTrim a.content = jsTrim b.content
    · simp [heq]
    · simp [heq]
  · rw [if_neg hord]
    simp only [List.map_cons, List.map_nil, jsSetList_pair]
    by_cases heq : jsTrim a.content = jsTrim b.content
    · simp [heq]
    · have heq2 : ¬ (jsTrim b.content = jsTrim a.content) := fun h => heq h.symm
      simp [heq, heq2]

/-- `detectDuplicates` over three notes at threshold 0.88 when only the
second clears it: the group is the probe plus the second note. -/
theorem detectDuplicates_three (n1 n2 n3 : Note) (e1 e2 e3 : List ℝ) (s12 s13 : ℝ)
    (h1 : n1.embedding = some e1) (h2 : n2.embedding = some e2)
    (h3 : n3.embedding = some e3)
    (hid12 : n1.id ≠ n2.id) (hid13 : n1.id ≠ n3.id)
    (hsim12 : calculateCosineSimilarity e1 e2 = some s12)
    (hsim13 : calculateCosineSimilarity e1 e3 = some s13)
    (hge : (0.88 : ℝ) ≤ s12) (hlt : ¬ (0.88 : ℝ) ≤ s13) :
    detectDuplicates n1 [n1, n2, n3] 0.88 =
      some [{ notes := [n1, n2], similarity := s12,
              reason := "1 sehr ähnliche Notizen gefunden (0% Übereinstimmung)" }] := by
  have hid12' : ¬ (n2.id = n1.id) := fun h => hid12 h.symm
  have hid13' : ¬ (n3.id = n1.id) := fun h => hid13 h.symm
  have hcol : collectSimilar n1 e1 0.88 [n1, n2, n3] = some [n2] := by
    simp only [collectSimilar, eq_self_iff_true, if_true, if_neg hid12', if_neg hid13',
      h2, h3, hsim12, hsim13, if_pos hge, if_neg hlt]
  have hsl : simList e1 [n2] = some [s12] := by
    simp only [simList, h2, hsim12, Option.map_some, Option.map]
  simp only [detectDuplicates, h1, hcol, hsl, listMax_single]
  rw [if_pos (by simp)]
  simp only [List.length_cons, List.length_nil]
  rfl

/-- Concrete duplicate-test notes: contents "a" and "a " with identical
embeddings, and a third note at similarity 0.5 to the probe. -/
def dupNote1 : Note :=
  { id := "1", content := "a", category := NoteCategory.info, createdAt := 0,
    embedding := some [1, 0, 0, 0] }

def dupNote2 : Note :=
  { id := "2", content := "a ", category := NoteCategory.info, createdAt := 1,
    embedding := some [1, 0, 0, 0] }

noncomputable def dupNote3 : Note :=
  { id := "3", content := "c", category := NoteCategory.info, createdAt := 2,
    embedding := some [1/2, 1/2, 1/2, 1/2] }

theorem cosSim_unit_self : calculateCosineSimilarity [(1 : ℝ), 0, 0, 0] [1, 0, 0, 0] =
    some 1 := by
  apply cosSim_self
  exact magnitude_ne_zero_of_pos _ (by norm_num [sumSq])

theorem cosSim_unit_half : calculateCosineSimilarity [(1 : ℝ), 0, 0, 0]
    [1/2, 1/2, 1/2, 1/2] = some 0.5 := by
  have hm1 : magnitude [(1 : ℝ), 0, 0, 0] = 1 := by
    unfold magnitude
    rw [show sumSq [(1 : ℝ), 0, 0, 0] = 1 by norm_num [sumSq], Real.sqrt_one]
  have hm2 : magnitude [(1 : ℝ)/2, 1/2, 1/2, 1/2] = 1 := by
    unfold magnitude
    rw [show sumSq [(1 : ℝ)/2, 1/2, 1/2, 1/2] = 1 by norm_num [sumSq], Real.sqrt_one]
  unfold calculateCosineSimilarity
  rw [if_neg (by simp), if_neg (by rw [hm1, hm2]; norm_num)]
  rw [hm1, hm2]
  norm_num [dotList, List.zip_cons_cons]

/-- Counterexample to C2 as stated: two grouped notes whose contents "a" and
"a " are not byte-identical still merge with confidence 0.95, because the
source compares trimmed contents. -/
theorem C2_counterexample :
    dupNote1.content ≠ dupNote2.content ∧
    calculateCosineSimilarity [(1 : ℝ), 0, 0, 0] [1, 0, 0, 0] = some 1 ∧
    calculateCosineSimilarity [(1 : ℝ), 0, 0, 0] [1/2, 1/2, 1/2, 1/2] = some 0.5 ∧
    detectDuplicates dupNote1 [dupNote1, dupNote2, dupNote3] 0.88 =
      some [{ notes := [dupNote1, dupNote2], similarity := 1,
              reason := "1 sehr ähnliche Notizen gefunden (0% Übereinstimmung)" }] ∧
    (suggestMergeNotes [dupNote1, dupNote2]).map (fun m => m.confidence) = some 0.95 := by
  refine ⟨by decide, cosSim_unit_self, cosSim_unit_half, ?_, ?_⟩
  · exact detectDuplicates_three _ _ _ _ _ _ 1 0.5 rfl rfl rfl (by decide) (by decide)
      cosSim_unit_self cosSim_unit_half (by norm_num) (by norm_num)
  · rw [suggestMergeNotes_pair_confidence]
    rw [if_pos (by decide)]

/-- C2 (amended): with three notes where the probe's similarity to the second
is ≥ 0.88 and to the third is 0.5, duplicate detection groups only the first
two, and the merge suggestion for that group has confidence 0.95 when the two
notes' trimmed contents are equal and 0.75 otherwise. -/
theorem C2_duplicate_merge (n1 n2 n3 : Note) (e1 e2 e3 : List ℝ) (s12 : ℝ)
    (h1 : n1.embedding = some e1) (h2 : n2.embedding = some e2)
    (h3 : n3.embedding = some e3)
    (hid12 : n1.id ≠ n2.id) (hid13 : n1.id ≠ n3.id)
    (hsim12 : calculateCosineSimilarity e1 e2 = some s12)
    (hge : (0.88 : ℝ) ≤ s12)
    (hsim13 : calculateCosineSimilarity e1 e3 = some 0.5)
    (hsim23 : calculateCosineSimilarity e2 e3 = some 0.5) :
    detectDuplicates n1 [n1, n2, n3] 0.88 =
      some [{ notes := [n1, n2], similarity := s12,
              reason := "1 sehr ähnliche Notizen gefunden (0% Übereinstimmung)" }] ∧
    (suggestMergeNotes [n1, n2]).map (fun m => m.confidence) =
      some (if jsTrim n1.content = jsTrim n2.content then (0.95 : ℝ) else 0.75) :=
  ⟨detectDuplicates_three n1 n2 n3 e1 e2 e3 s12 0.5 h1 h2 h3 hid12 hid13 hsim12 hsim13
      hge (by norm_num),
   suggestMergeNotes_pair_confidence n1 n2⟩

/-- Concrete notes with equal contents for the C2 witness. -/
def dupNote1x : Note :=
  { id := "1", content := "x", category := NoteCategory.info, createdAt := 0,
    embedding := some [1, 0, 0, 0] }

def dupNote2x : Note :=
  { id := "2", content := "x", category := NoteCategory.info, createdAt := 1,
    embedding := some [1, 0, 0, 0] }

noncomputable def dupNote3y : Note :=
  { id := "3", content := "y", category := NoteCategory.info, createdAt := 2,
    embedding := some [1/2, 1/2, 1/2, 1/2] }

/-- Witness for C2 at concrete notes with identical embeddings (similarity 1)
and a third note at similarity 0.5. -/
theorem C2_witness :
    detectDuplicates dupNote1x [dupNote1x, dupNote2x, dupNote3y] 0.88 =
      some [{ notes := [dupNote1x, dupNote2x], similarity := 1,
              reason := "1 sehr ähnliche Notizen gefunden (0% Übereinstimmung)" }] ∧
    (suggestMergeNotes [dupNote1x, dupNote2x]).map (fun m => m.confidence) =
      some (if jsTrim dupNote1x.content = jsTrim dupNote2x.content then (0.95 : ℝ)
        else 0.75) :=
  C2_duplicate_merge dupNote1x dupNote2x dupNote3y _ _ _ 1 rfl rfl rfl
    (by decide) (by decide) cosSim_unit_self (by norm_num) cosSim_unit_half cosSim_unit_half

/-! ## Automation engine: emerging-project detection (claim C8) -/

structure TopicCluster where
  topic : String
  noteIds : List String
  strength : ℝ

structure EmergingProject where
  name : String
  relatedNoteIds : List String
  topics : List String
  confidence : ℝ
  reason : String

/-- `detectTopicClusters(graph, minNotes)`: for every topic node with at
least `minNotes` incoming `topicOf` edges, a cluster of the edge sources
with the average edge strength, sorted by cluster size descending (a stable
comparator sort). -/
noncomputable def detectTopicClusters (graph : KnowledgeGraph) (minNotes : Nat) :
    List TopicCluster :=
  let topicNodes := graph.nodes.filter fun n => n.type == NodeType.topic
  let clusters := topicNodes.foldl (fun cs node =>
    let topicEdges := graph.edges.filter fun e =>
      e.to' == node.id && e.type == EdgeType.topicOf
    if minNotes ≤ topicEdges.length then
      cs ++ [{ topic := node.label
               noteIds := topicEdges.map fun e => e.from'
               strength := (topicEdges.map fun e => e.strength).sum / topicEdges.length }]
    else cs) []
  List.insertionSort (fun a b : TopicCluster => b.noteIds.length ≤ a.noteIds.length) clusters

/-- JS default array-sort comparison: lexicographic on UTF-16 code units. -/
def charListLe : List Char → List Char → Bool
  | [], _ => true
  | _ :: _, [] => false
  | c1 :: r1, c2 :: r2 =>
    if c1.toNat < c2.toNat then true
    else if c2.toNat < c1.toNat then false
    else charListLe r1 r2

/-- String comparison used by `[t1, t2].sort()`. -/
def jsStrLe (s t : String) : Bool :=
  charListLe s.data t.data

/-- The `[topics[i], topics[j]].sort().join("|")` key of a topic pair. -/
def comboKey (t1 t2 : String) : String :=
  if jsStrLe t1 t2 then t1 ++ "|" ++ t2 else t2 ++ "|" ++ t1

/-- All index pairs i < j of a topic list, in loop order. -/
def topicPairs : List String → List (String × String)
  | [] => []
  | t :: rest => (rest.map fun u => (t, u)) ++ topicPairs rest

/-- JS `key.split("|")` on a single-character separator. -/
def splitOnChar (sep : Char) : List Char → List (List Char)
  | [] => [[]]
  | c :: rest =>
    if c = sep then [] :: splitOnChar sep rest
    else
      match splitOnChar sep rest with
      | [] => [[c]]
      | f :: fs => (c :: f) :: fs

/-- `key.split("|")` as used to recover the pair from a combination key. -/
def jsSplitPipe (s : String) : List String :=
  (splitOnChar '|' s.data).map String.mk

/-- One `combinations` map update: JS `Map` keeps insertion order and a new
key is appended at the end (keys are unique, so updating every matching
entry coincides with updating the stored one). -/
def upsertCombo (m : List (String × Nat × List String)) (key : String) (nid : String) :
    List (String × Nat × List String) :=
  if m.any fun p => p.1 == key then
    m.map fun p => if p.1 == key then (p.1, p.2.1 + 1, p.2.2 ++ [nid]) else p
  else m ++ [(key, 1, [nid])]

structure TopicCombo where
  topics : List String
  count : Nat
  noteIds : List String
deriving DecidableEq

/-- `findFrequentTopicCombinations(notes, minOccurrences)`. -/
def findFrequentTopicCombinations (notes : List Note) (minOccurrences : Nat) :
    List TopicCombo :=
  let combos := notes.foldl (fun m note =>
    let topics := match note.entities with
      | none => []
      | some e => e.topics.getD []
    if 2 ≤ topics.length then
      (topicPairs topics).foldl (fun m p => upsertCombo m (comboKey p.1 p.2) note.id) m
    else m) []
  (combos.filter fun p => minOccurrences ≤ p.2.1).map fun p =>
    { topics := jsSplitPipe p.1, count := p.2.1, noteIds := p.2.2 }

/-- The persons mentioned across a cluster's notes. -/
def clusterPersons (clusterNotes : List Note) : List String :=
  jsSetList (clusterNotes.foldr (fun n acc =>
    (match n.entities with | none => [] | some e => e.persons) ++ acc) [])

/-- The first phase of `detectEmergingProjects`: topic clusters of at least
4 notes without an existing project, kept when the task-count/people signals
reach confidence 0.5. -/
noncomputable def emergingFromClusters (notes : List Note) (graph : KnowledgeGraph) :
    List EmergingProject :=
  (detectTopicClusters graph 4).foldl (fun acc cluster =>
    let existingProjectEdges := graph.edges.filter fun e =>
      e.type == EdgeType.projectOf &&
        graph.nodes.any fun n => n.id == e.to' && n.label == cluster.topic
    if existingProjectEdges.length = 0 ∧ 4 ≤ cluster.noteIds.length then
      let clusterNotes := notes.filter fun n => cluster.noteIds.contains n.id
      let taskCount := (clusterNotes.filter fun n => n.category == NoteCategory.task).length
      let hasMultiplePeople := 1 < (clusterPersons clusterNotes).length
      let confidence := (if 2 ≤ taskCount then (0.4 : ℝ) else 0.2) +
        (if hasMultiplePeople then (0.4 : ℝ) else 0.2)
      if (0.5 : ℝ) ≤ confidence then
        acc ++ [{ name := cluster.topic, relatedNoteIds := cluster.noteIds
                  topics := [cluster.topic], confidence := confidence
                  reason := toString cluster.noteIds.length ++ " Notizen zum Thema \"" ++
                    cluster.topic ++ "\" gefunden (" ++ toString taskCount ++ " Tasks, " ++
                    (if hasMultiplePeople then "mehrere Personen" else "einzelne Person") ++
                    ")" }]
      else acc
    else acc) []

/-- One step of the co-occurring-topic phase: pairs with at least 4 shared
occurrences become alternate candidates unless the combined name was already
emitted. -/
noncomputable def emergingComboStep (acc : List EmergingProject) (combo : TopicCombo) :
    List EmergingProject :=
  if 4 ≤ combo.count then
    if acc.any fun p => p.name == String.intercalate " + " combo.topics then acc
    else acc ++ [{ name := String.intercalate " + " combo.topics
                   relatedNoteIds := combo.noteIds, topics := combo.topics
                   confidence := min ((combo.count : ℝ) / 10) 0.9
                   reason := toString combo.count ++ " Notizen kombinieren die Themen \"" ++
                     String.intercalate " + " combo.topics ++ "\"" }]
  else acc

/-- `detectEmergingProjects(notes, graph)` (the async wrapper is pure):
cluster candidates, then co-occurrence candidates, sorted by confidence
descending (a stable comparator sort). -/
noncomputable def detectEmergingProjects (notes : List Note) (graph : KnowledgeGraph) :
    List EmergingProject :=
  List.insertionSort (fun a b : EmergingProject => b.confidence ≤ a.confidence)
    ((findFrequentTopicCombinations notes 3).foldl emergingComboStep
      (emergingFromClusters notes graph))

theorem emergingComboStep_mono (combos : List TopicCombo) (acc : List EmergingProject)
    (p : EmergingProject) (hp : p ∈ acc) : p ∈ combos.foldl emergingComboStep acc := by
  induction combos generalizing acc with
  | nil => exact hp
  | cons c rest ih =>
    simp only [List.foldl_cons]
    apply ih
    unfold emergingComboStep
    by_cases h4 : 4 ≤ c.count
    · rw [if_pos h4]
      by_cases hany : (acc.any fun q => q.name == String.intercalate " + " c.topics) = true
      · rw [if_pos hany]; exact hp
      · rw [if_neg hany]
        exact List.mem_append.mpr (Or.inl hp)
    · rw [if_neg h4]; exact hp

theorem emergingComboStep_fold_emits (combos : List TopicCombo) (acc : List EmergingProject)
    (combo : TopicCombo) (hc : combo ∈ combos) (hcount : 4 ≤ combo.count)
    (hacc : ∀ q ∈ acc, q.name ≠ String.intercalate " + " combo.topics)
    (hothers : ∀ c2 ∈ combos, c2 ≠ combo →
      String.intercalate " + " c2.topics ≠ String.intercalate " + " combo.topics) :
    ∃ p ∈ combos.foldl emergingComboStep acc,
      p.name = String.intercalate " + " combo.topics ∧
      p.relatedNoteIds = combo.noteIds ∧ p.topics = combo.topics := by
  induction combos generalizing acc with
  | nil => cases hc
  | cons c rest ih =>
    simp only [List.foldl_cons]
    by_cases hcb : c = combo
    · subst hcb
      have hany : ¬ ((acc.any fun q => q.name == String.intercalate " + " c.topics) = true) := by
        simp only [List.any_eq_true, beq_iff_eq, not_exists]
        intro q
        exact fun hmem => hacc q hmem.1 hmem.2
      have hstep : emergingComboStep acc c = acc ++
          [{ name := String.intercalate " + " c.topics
             relatedNoteIds := c.noteIds, topics := c.topics
             confidence := min ((c.count : ℝ) / 10) 0.9
             reason := toString c.count ++ " Notizen kombinieren die Themen \"" ++
               String.intercalate " + " c.topics ++ "\"" }] := by
        unfold emergingComboStep
        rw [if_pos hcount, if_neg hany]
      rw [hstep]
      refine ⟨_, emergingComboStep_mono rest _ _
        (List.mem_append.mpr (Or.inr (List.mem_singleton.mpr rfl))), rfl, rfl, rfl⟩
    · have htail : combo ∈ rest := by
        rcases List.mem_cons.mp hc with heq | h
        · exact absurd heq.symm hcb
        · exact h
      refine ih _ htail ?_ ?_
      · intro q hq
        unfold emergingComboStep at hq
        by_cases h4 : 4 ≤ c.count
        · rw [if_pos h4] at hq
          by_cases hany : (acc.any fun p => p.name == String.intercalate " + " c.topics) = true
          · rw [if_pos hany] at hq
            exact hacc q hq
          · rw [if_neg hany] at hq
            rcases List.mem_append.mp hq with hin | hnew
            · exact hacc q hin
            · rw [List.mem_singleton.mp hnew]
              exact hothers c (by simp) hcb
        · rw [if_neg h4] at hq
          exact hacc q hq
      · intro c2 hc2 hne
        exact hothers c2 (by simp [hc2]) hne

/-- C8 (amended): every topic pair co-occurring in at least 4 notes yields an
alternate emerging-project candidate named by the joined pair and carrying
the co-occurring note ids, provided no candidate with the identical combined
name was emitted before it. -/
theorem C8_emerging_topic_pairs (notes : List Note) (graph : KnowledgeGraph)
    (combo : TopicCombo)
    (hc : combo ∈ findFrequentTopicCombinations notes 3)
    (hcount : 4 ≤ combo.count)
    (hfresh1 : ∀ q ∈ emergingFromClusters notes graph,
      q.name ≠ String.intercalate " + " combo.topics)
    (hfresh2 : ∀ c2 ∈ findFrequentTopicCombinations notes 3, c2 ≠ combo →
      String.intercalate " + " c2.topics ≠ String.intercalate " + " combo.topics) :
    ∃ p ∈ detectEmergingProjects notes graph,
      p.name = String.intercalate " + " combo.topics ∧
      p.relatedNoteIds = combo.noteIds ∧ p.topics = combo.topics := by
  obtain ⟨p, hp, hprops⟩ :=
    emergingComboStep_fold_emits _ _ combo hc hcount hfresh1 hfresh2
  exact ⟨p, (List.perm_insertionSort _ _).mem_iff.mpr hp, hprops⟩

/-- A note carrying the two topics "a" and "b". -/
def topicNote (i : String) : Note :=
  { id := i, content := "", category := NoteCategory.info, createdAt := 0,
    entities := some { persons := [], places := [], projects := [],
                       topics := some ["a", "b"] } }

/-- Counterexample to C8 as stated: the pair ("a","b") co-occurs in exactly 3
notes (so `findFrequentTopicCombinations` at the stated minimum 3 reports
it), yet `detectEmergingProjects` emits no candidate because its own filter
demands at least 4 shared occurrences. -/
theorem C8_counterexample :
    findFrequentTopicCombinations [topicNote "1", topicNote "2", topicNote "3"] 3 =
      [{ topics := ["a", "b"], count := 3, noteIds := ["1", "2", "3"] }] ∧
    detectEmergingProjects [topicNote "1", topicNote "2", topicNote "3"] emptyGraph =
      [] := by
  have hfind : findFrequentTopicCombinations [topicNote "1", topicNote "2", topicNote "3"] 3 =
      [{ topics := ["a", "b"], count := 3, noteIds := ["1", "2", "3"] }] := by decide
  refine ⟨hfind, ?_⟩
  unfold detectEmergingProjects
  rw [hfind]
  rw [show emergingFromClusters [topicNote "1", topicNote "2", topicNote "3"] emptyGraph =
    [] from rfl]
  simp only [List.foldl_cons, List.foldl_nil]
  rw [show emergingComboStep []
      { topics := ["a", "b"], count := 3, noteIds := ["1", "2", "3"] } = [] from by
    unfold emergingComboStep
    rw [if_neg (by norm_num)]]
  rfl

/-- Witness for C8: four concrete notes sharing the topics "a" and "b" yield
the combined candidate "a + b". -/
theorem C8_witness :
    ∃ p ∈ detectEmergingProjects
        [topicNote "1", topicNote "2", topicNote "3", topicNote "4"] emptyGraph,
      p.name = String.intercalate " + " ["a", "b"] ∧
      p.relatedNoteIds = ["1", "2", "3", "4"] ∧ p.topics = ["a", "b"] := by
  have hfind : findFrequentTopicCombinations
      [topicNote "1", topicNote "2", topicNote "3", topicNote "4"] 3 =
      [{ topics := ["a", "b"], count := 4, noteIds := ["1", "2", "3", "4"] }] := by decide
  refine C8_emerging_topic_pairs _ _
    { topics := ["a", "b"], count := 4, noteIds := ["1", "2", "3", "4"] } ?_ (by norm_num)
    ?_ ?_
  · rw [hfind]
    exact List.mem_singleton.mpr rfl
  · intro q hq
    rw [show emergingFromClusters
      [topicNote "1", topicNote "2", topicNote "3", topicNote "4"] emptyGraph = []
      from rfl] at hq
    simp at hq
  · intro c2 hc2 hne
    rw [hfind] at hc2
    exact absurd (List.mem_singleton.mp hc2) hne

/-! ## Suggestion store (localStorage.ts): AI suggestions (claims C3, C10) -/

inductive SuggStatus
  | pending | accepted | rejected
deriving DecidableEq

inductive SuggType
  | duplicate | project | cleanup | action | emerging_project
deriving DecidableEq

inductive CleanupKind
  | outdated | incomplete | ambiguous
deriving DecidableEq

structure CleanupSuggestion where
  type : CleanupKind
  noteId : String
  reason : String
  suggestedAction : String
  confidence : ℝ

inductive ActionKind
  | task | follow_up | organize | cleanup
deriving DecidableEq

inductive ActionPriority
  | low | medium | high
deriving DecidableEq

structure NextActionSuggestion where
  type : ActionKind
  title : String
  description : String
  priority : ActionPriority
  relatedNoteIds : List String

/-- The `data: any` payload of a suggestion: one shape per suggestion
source. -/
inductive SuggData
  | merge (m : MergeSuggestion)
  | emerging (p : EmergingProject)
  | cleanupItem (c : CleanupSuggestion)
  | nextAction (a : NextActionSuggestion)

/-- An AI suggestion record; `createdAt` is the ISO timestamp modelled by
its epoch milliseconds. -/
structure AISuggestion where
  id : String
  type : SuggType
  title : String
  description : String
  data : SuggData
  confidence : ℝ
  createdAt : Nat
  status : SuggStatus

/-- `addAISuggestion(suggestion)` on the stored array: skip when a pending
suggestion with the same type and title exists, otherwise unshift. -/
def addAISuggestion (suggestions : List AISuggestion) (suggestion : AISuggestion) :
    List AISuggestion :=
  let isDuplicate := suggestions.any fun s =>
    s.type == suggestion.type && s.title == suggestion.title &&
      s.status == SuggStatus.pending
  if isDuplicate then suggestions else suggestion :: suggestions

/-- The `findIndex` + replace-at-index idiom of accept/reject: update the
status of the first entry with the given id, keep everything else. -/
def setStatusFirst (status : SuggStatus) : List AISuggestion → String → List AISuggestion
  | [], _ => []
  | s :: rest, id =>
    if s.id = id then { s with status := status } :: rest
    else s :: setStatusFirst status rest id

/-- `acceptAISuggestion(id)`. -/
def acceptAISuggestion (suggestions : List AISuggestion) (id : String) :
    List AISuggestion :=
  setStatusFirst SuggStatus.accepted suggestions id

/-- `rejectAISuggestion(id)`. -/
def rejectAISuggestion (suggestions : List AISuggestion) (id : String) :
    List AISuggestion :=
  setStatusFirst SuggStatus.rejected suggestions id

/-- `clearOldAISuggestions()`: keep entries newer than the seven-day cutoff
or still pending. -/
def clearOldAISuggestions (suggestions : List AISuggestion) (sevenDaysAgo : Nat) :
    List AISuggestion :=
  suggestions.filter fun s => sevenDaysAgo < s.createdAt || s.status == SuggStatus.pending

/-- The store invariant: no two pending suggestions share (type, title). -/
def PendingDedup (l : List AISuggestion) : Prop :=
  l.Pairwise fun a b => a.status = SuggStatus.pending → b.status = SuggStatus.pending →
    ¬ (a.type = b.type ∧ a.title = b.title)

theorem mem_setStatusFirst (st : SuggStatus) (l : List AISuggestion) (id : String)
    (y : AISuggestion) (hy : y ∈ setStatusFirst st l id) :
    y ∈ l ∨ ∃ y0 ∈ l, y = { y0 with status := st } := by
  induction l with
  | nil => cases hy
  | cons s rest ih =>
    simp only [setStatusFirst] at hy
    by_cases hsid : s.id = id
    · rw [if_pos hsid] at hy
      rcases List.mem_cons.mp hy with h1 | h2
      · exact Or.inr ⟨s, by simp, h1⟩
      · exact Or.inl (by simp [h2])
    · rw [if_neg hsid] at hy
      rcases List.mem_cons.mp hy with h1 | h2
      · exact Or.inl (by simp [h1])
      · rcases ih h2 with hin | ⟨y0, hy0, hmod⟩
        · exact Or.inl (by simp [hin])
        · exact Or.inr ⟨y0, by simp [hy0], hmod⟩

theorem pendingDedup_setStatusFirst (st : SuggStatus) (hst : st ≠ SuggStatus.pending)
    (l : List AISuggestion) (id : String) (h : PendingDedup l) :
    PendingDedup (setStatusFirst st l id) := by
  induction l with
  | nil => exact h
  | cons s rest ih =>
    rcases List.pairwise_cons.mp h with ⟨hhead, htail⟩
    simp only [setStatusFirst]
    by_cases hsid : s.id = id
    · rw [if_pos hsid]
      apply List.pairwise_cons.mpr
      refine ⟨?_, htail⟩
      intro b hb hpend
      exact absurd hpend hst
    · rw [if_neg hsid]
      apply List.pairwise_cons.mpr
      refine ⟨?_, ih htail⟩
      intro b hb hs hbpend
      rcases mem_setStatusFirst st rest id b hb with hin | ⟨y0, hy0, hmod⟩
      · exact hhead b hin hs hbpend
      · rw [hmod] at hbpend
        exact absurd hbpend hst

/-- C3: the pending-deduplication invariant.  Adding a suggestion whose
(type, title) matches a stored pending one leaves the store unchanged, and
every store operation (add, accept, reject, clear) preserves the invariant
that no two pending suggestions share (type, title). -/
theorem C3_pending_dedup_invariant :
    (∀ (l : List AISuggestion) (s t : AISuggestion), t ∈ l →
      t.status = SuggStatus.pending → t.type = s.type → t.title = s.title →
      addAISuggestion l s = l) ∧
    (∀ (l : List AISuggestion) (s : AISuggestion), PendingDedup l →
      PendingDedup (addAISuggestion l s)) ∧
    (∀ (l : List AISuggestion) (id : String), PendingDedup l →
      PendingDedup (acceptAISuggestion l id)) ∧
    (∀ (l : List AISuggestion) (id : String), PendingDedup l →
      PendingDedup (rejectAISuggestion l id)) ∧
    (∀ (l : List AISuggestion) (cutoff : Nat), PendingDedup l →
      PendingDedup (clearOldAISuggestions l cutoff)) := by
  refine ⟨?_, ?_, ?_, ?_, ?_⟩
  · intro l s t ht hpend htype htitle
    unfold addAISuggestion
    rw [if_pos]
    exact List.any_eq_true.mpr ⟨t, ht, by simp [htype, htitle, hpend]⟩
  · intro l s h
    unfold addAISuggestion
    by_cases hdup : (l.any fun x => x.type == s.type && x.title == s.title &&
        x.status == SuggStatus.pending) = true
    · rw [if_pos hdup]; exact h
    · rw [if_neg hdup]
      apply List.pairwise_cons.mpr
      refine ⟨?_, h⟩
      intro b hb hspend hbpend hmatch
      apply hdup
      exact List.any_eq_true.mpr ⟨b, hb, by simp [hmatch.1.symm, hmatch.2.symm, hbpend]⟩
  · intro l id h
    exact pendingDedup_setStatusFirst SuggStatus.accepted (by simp) l id h
  · intro l id h
    exact pendingDedup_setStatusFirst SuggStatus.rejected (by simp) l id h
  · intro l cutoff h
    exact List.Pairwise.sublist (List.filter_sublist l) h

/-- A concrete pending suggestion. -/
noncomputable def suggA : AISuggestion :=
  { id := "s1", type := SuggType.duplicate, title := "T", description := ""
    data := SuggData.cleanupItem
      { type := CleanupKind.outdated, noteId := "n", reason := "r",
        suggestedAction := "a", confidence := 0.6 }
    confidence := 0.9, createdAt := 0, status := SuggStatus.pending }

/-- A second pending suggestion with the same type and title as `suggA`. -/
noncomputable def suggB : AISuggestion :=
  { suggA with id := "s2" }

/-- Witness for C3 at a concrete store. -/
theorem C3_witness :
    addAISuggestion [suggA] suggB = [suggA] ∧
    PendingDedup (addAISuggestion [suggA] suggB) ∧
    PendingDedup (acceptAISuggestion [suggA] "s1") ∧
    PendingDedup (rejectAISuggestion [suggA] "s1") ∧
    PendingDedup (clearOldAISuggestions [suggA] 100) := by
  have hd : PendingDedup [suggA] := by simp [PendingDedup]
  have hadd : addAISuggestion [suggA] suggB = [suggA] :=
    C3_pending_dedup_invariant.1 [suggA] suggB suggA (by simp) rfl rfl rfl
  exact ⟨hadd,
         C3_pending_dedup_invariant.2.1 [suggA] suggB hd,
         C3_pending_dedup_invariant.2.2.1 [suggA] "s1" hd,
         C3_pending_dedup_invariant.2.2.2.1 [suggA] "s1" hd,
         C3_pending_dedup_invariant.2.2.2.2 [suggA] 100 hd⟩

theorem setStatusFirst_spec (st : SuggStatus) (l : List AISuggestion) (id : String) :
    (∃ l1 s l2, l = l1 ++ s :: l2 ∧ (∀ x ∈ l1, x.id ≠ id) ∧ s.id = id ∧
      setStatusFirst st l id = l1 ++ { s with status := st } :: l2) ∨
    ((∀ s ∈ l, s.id ≠ id) ∧ setStatusFirst st l id = l) := by
  induction l with
  | nil => exact Or.inr ⟨by simp, rfl⟩
  | cons s rest ih =>
    by_cases hsid : s.id = id
    · left
      exact ⟨[], s, rest, rfl, by simp, hsid, by simp [setStatusFirst, if_pos hsid]⟩
    · rcases ih with ⟨l1, s0, l2, hsplit, hl1, hs0, heq⟩ | ⟨hall, heq⟩
      · left
        refine ⟨s :: l1, s0, l2, by rw [hsplit]; rfl, ?_, hs0, ?_⟩
        · intro x hx
          rcases List.mem_cons.mp hx with h1 | h2
          · rw [h1]; exact hsid
          · exact hl1 x h2
        · simp only [setStatusFirst, if_neg hsid, heq]
          rfl
      · right
        refine ⟨?_, by simp [setStatusFirst, if_neg hsid, heq]⟩
        intro x hx
        rcases List.mem_cons.mp hx with h1 | h2
        · rw [h1]; exact hsid
        · exact hall x h2

/-- C10: accept/reject update only the status field of the first stored
suggestion whose id matches (to accepted / rejected respectively); every
other stored suggestion, and every other field of the matched one, is left
unchanged, and a store without the id is returned entirely unchanged. -/
theorem C10_accept_reject_frame (l : List AISuggestion) (id : String) :
    ((∃ l1 s l2, l = l1 ++ s :: l2 ∧ (∀ x ∈ l1, x.id ≠ id) ∧ s.id = id ∧
        acceptAISuggestion l id = l1 ++ { s with status := SuggStatus.accepted } :: l2) ∨
      ((∀ s ∈ l, s.id ≠ id) ∧ acceptAISuggestion l id = l)) ∧
    ((∃ l1 s l2, l = l1 ++ s :: l2 ∧ (∀ x ∈ l1, x.id ≠ id) ∧ s.id = id ∧
        rejectAISuggestion l id = l1 ++ { s with status := SuggStatus.rejected } :: l2) ∨
      ((∀ s ∈ l, s.id ≠ id) ∧ rejectAISuggestion l id = l)) :=
  ⟨setStatusFirst_spec SuggStatus.accepted l id, setStatusFirst_spec SuggStatus.rejected l id⟩

/-! ## NLP pipeline: relative-date parsing (claim C9)

The current time is modelled by the number of civil days since 1970-01-01;
`Date#toISOString().split("T")[0]` is Gregorian day formatting. -/

/-- Gregorian (year, month, day) of a day count since 1970-01-01, by the
standard era decomposition used for civil-from-days conversions. -/
def civilFromDays (days : Nat) : Nat × Nat × Nat :=
  let z := days + 719468
  let era := z / 146097
  let doe := z % 146097
  let yoe := (doe - doe / 1460 + doe / 36524 - doe / 146096) / 365
  let y := yoe + era * 400
  let doy := doe - (365 * yoe + yoe / 4 - yoe / 100)
  let mp := (5 * doy + 2) / 153
  let d := doy - (153 * mp + 2) / 5 + 1
  let m := if mp < 10 then mp + 3 else mp - 9
  (if m ≤ 2 then y + 1 else y, m, d)

/-- Two-digit zero padding. -/
def pad2 (n : Nat) : String :=
  if n < 10 then "0" ++ toString n else toString n

/-- Four-digit zero padding (the year field of `toISOString`). -/
def pad4 (n : Nat) : String :=
  if n < 10 then "000" ++ toString n
  else if n < 100 then "00" ++ toString n
  else if n < 1000 then "0" ++ toString n
  else toString n

/-- The `YYYY-MM-DD` date part of `toISOString` for a day count. -/
def formatISODate (days : Nat) : String :=
  pad4 (civilFromDays days).1 ++ "-" ++ pad2 (civilFromDays days).2.1 ++ "-" ++
    pad2 (civilFromDays days).2.2

/-- `Date#getDay`: 1970-01-01 was a Thursday (4). -/
def jsGetDay (days : Nat) : Nat :=
  (days + 4) % 7

/-- The weekday names scanned by the parser, indexed by `getDay` value. -/
def weekdays : List String :=
  ["sonntag", "montag", "dienstag", "mittwoch", "donnerstag", "freitag", "samstag"]

/-- `parseInt` on a digit string. -/
def digitsToNat (ds : List Char) : Nat :=
  ds.foldl (fun acc c => 10 * acc + (c.toNat - 48)) 0

/-- Try the regex `in (\d+) <unit>` anchored at the start of `l`. -/
def matchInAt (l : List Char) (unit : List Char) : Option Nat :=
  if ['i', 'n', ' '].isPrefixOf l then
    let rest := l.drop 3
    let ds := rest.takeWhile Char.isDigit
    if ds.isEmpty then none
    else if (' ' :: unit).isPrefixOf (rest.drop ds.length) then some (digitsToNat ds)
    else none
  else none

/-- Search `in (\d+) <unit>` anywhere in `l` (the regex's leftmost match). -/
def findInNum : List Char → List Char → Option Nat
  | [], _ => none
  | c :: rest, unit =>
    match matchInAt (c :: rest) unit with
    | some n => some n
    | none => findInNum rest unit

/-- The regex `^\d{4}-\d{2}-\d{2}$`. -/
def isIsoDate : List Char → Bool
  | [a, b, c, d, e, f, g, h, i, j] =>
    a.isDigit && b.isDigit && c.isDigit && d.isDigit && e == '-' &&
      f.isDigit && g.isDigit && h == '-' && i.isDigit && j.isDigit
  | _ => false

/-- `parseRelativeDate(dateExpression)` evaluated on a given current day.
`none` models both a `null` argument (and the empty string, which is falsy)
and the `return null` fallthrough. -/
def parseRelativeDate (todayDays : Nat) (dateExpression : Option String) : Option String :=
  match dateExpression with
  | none => none
  | some de =>
    if de = "" then none
    else
      let expr := jsTrim (jsToLower de)
      if expr = "heute" ∨ expr = "today" then some (formatISODate todayDays)
      else if expr = "morgen" ∨ expr = "tomorrow" then
        some (formatISODate (todayDays + 1))
      else if expr = "übermorgen" ∨ expr = "day after tomorrow" then
        some (formatISODate (todayDays + 2))
      else
        match weekdays.enum.find? fun p => jsIncludes expr p.2 with
        | some p =>
          let currentDay := jsGetDay todayDays
          let daysUntil :=
            if p.1 ≤ currentDay then p.1 + 7 - currentDay else p.1 - currentDay
          some (formatISODate (todayDays + daysUntil))
        | none =>
          if jsIncludes expr "nächste woche" ∨ expr = "next week" then
            let currentDay := jsGetDay todayDays
            let r := (8 - currentDay) % 7
            some (formatISODate (todayDays + (if r = 0 then 7 else r)))
          else
            match findInNum expr.data "tag".data with
            | some n => some (formatISODate (todayDays + n))
            | none =>
              match findInNum expr.data "woche".data with
              | some n => some (formatISODate (todayDays + n * 7))
              | none =>
                if isIsoDate expr.data then some expr
                else none

/-! ### Character-level facts used for the ISO passthrough -/

/-- A digit character's code point lies between 48 and 57. -/
theorem char_isDigit_bounds (c : Char) (h : c.isDigit = true) :
    48 ≤ c.toNat ∧ c.toNat ≤ 57 := by
  unfold Char.isDigit at h
  simp only [Bool.and_eq_true, decide_eq_true_eq, ge_iff_le] at h
  exact ⟨h.1, h.2⟩

/-- `toLowerCase` fixes digits and the hyphen. -/
theorem toLower_fix (c : Char) (h : c.isDigit = true ∨ c = '-') :
    Char.toLower c = c := by
  rcases h with h | rfl
  · obtain ⟨h1, h2⟩ := char_isDigit_bounds c h
    unfold Char.toLower
    rw [if_neg]
    omega
  · decide

/-- Digits and the hyphen are not JS whitespace. -/
theorem not_ws_of_digit_hyphen (c : Char) (h : c.isDigit = true ∨ c = '-') :
    isJsWs c = false := by
  rcases h with h | rfl
  · unfold isJsWs
    simp only [Bool.or_eq_false_iff, decide_eq_false_iff_not]
    refine ⟨⟨⟨⟨⟨?_, ?_⟩, ?_⟩, ?_⟩, ?_⟩, ?_⟩ <;> intro hEq <;> rw [hEq] at h <;>
      exact absurd h (by decide)
  · decide

/-- Mapping a function that fixes every element of a list is the identity. -/
theorem map_eq_self_of {α : Type} (f : α → α) :
    ∀ (l : List α), (∀ c ∈ l, f c = c) → l.map f = l
  | [], _ => rfl
  | a :: t, h => by
    rw [List.map_cons, h a (List.mem_cons_self a t),
      map_eq_self_of f t fun c hc => h c (List.mem_cons_of_mem a hc)]

/-- `toLowerCase` fixes a string all of whose characters it fixes. -/
theorem jsToLower_fix (s : String) (h : ∀ c ∈ s.data, Char.toLower c = c) :
    jsToLower s = s := by
  cases s with
  | mk data => exact congrArg String.mk (map_eq_self_of Char.toLower data h)

/-- `dropWhile` is the identity when no element satisfies the predicate. -/
theorem dropWhile_eq_self_of {α : Type} (p : α → Bool) (l : List α)
    (h : ∀ c ∈ l, p c = false) : l.dropWhile p = l := by
  cases l with
  | nil => rfl
  | cons a t =>
    rw [List.dropWhile_cons, h a (List.mem_cons_self a t)]
    simp

/-- `trim` fixes a character list with no whitespace. -/
theorem jsTrimList_fix (l : List Char) (h : ∀ c ∈ l, isJsWs c = false) :
    jsTrimList l = l := by
  unfold jsTrimList
  rw [dropWhile_eq_self_of isJsWs l h,
    dropWhile_eq_self_of isJsWs l.reverse fun c hc => h c (List.mem_reverse.mp hc)]
  exact List.reverse_reverse l

/-- `trim` fixes a string with no whitespace characters. -/
theorem jsTrim_fix (s : String) (h : ∀ c ∈ s.data, isJsWs c = false) :
    jsTrim s = s := by
  cases s with
  | mk data => exact congrArg String.mk (jsTrimList_fix data h)

/-- Characters of a list-prefix are members of the larger list. -/
theorem isPrefixOf_mem : ∀ (p l : List Char), p.isPrefixOf l = true → ∀ c ∈ p, c ∈ l
  | [], _, _, c, hc => absurd hc (List.not_mem_nil c)
  | _ :: _, [], h, _, _ => nomatch h
  | a :: p', b :: l', h, c, hc => by
    rw [List.isPrefixOf] at h
    simp only [Bool.and_eq_true, beq_iff_eq] at h
    obtain ⟨rfl, h2⟩ := h
    rcases List.mem_cons.mp hc with rfl | hc'
    · exact List.mem_cons_self c l'
    · exact List.mem_cons_of_mem _ (isPrefixOf_mem p' l' h2 c hc')

/-- Characters of a matched substring are members of the searched list. -/
theorem containsSub_subset : ∀ (l p : List Char), containsSub l p = true → ∀ c ∈ p, c ∈ l
  | [], [], _, c, hc => absurd hc (List.not_mem_nil c)
  | [], _ :: _, h, _, _ => nomatch h
  | a :: rest, p, h, c, hc => by
    rw [containsSub] at h
    rcases (Bool.or_eq_true _ _).mp h with h1 | h1
    · exact isPrefixOf_mem p (a :: rest) h1 c hc
    · exact List.mem_cons_of_mem a (containsSub_subset rest p h1 c hc)

/-- A successful `in (\d+) <unit>` search implies the letter i occurs. -/
theorem findInNum_mem : ∀ (l unit : List Char) (n : Nat),
    findInNum l unit = some n → 'i' ∈ l
  | [], _, _, h => nomatch h
  | c :: rest, unit, n, h => by
    rw [findInNum] at h
    cases hm : matchInAt (c :: rest) unit with
    | some m =>
      have hpre : ['i', 'n', ' '].isPrefixOf (c :: rest) = true := by
        cases hq : ['i', 'n', ' '].isPrefixOf (c :: rest) with
        | true => rfl
        | false =>
          exfalso
          have hcond : ¬(['i', 'n', ' '].isPrefixOf (c :: rest) = true) := by
            rw [hq]
            decide
          rw [matchInAt, if_neg hcond] at hm
          exact Option.noConfusion hm
      exact isPrefixOf_mem ['i', 'n', ' '] (c :: rest) hpre 'i' (by decide)
    | none =>
      rw [hm] at h
      exact List.mem_cons_of_mem c (findInNum_mem rest unit n h)

/-- Every character of a string matching `^\d{4}-\d{2}-\d{2}$` is a digit or
a hyphen. -/
theorem isIsoDate_chars : ∀ (l : List Char), isIsoDate l = true →
    ∀ x ∈ l, x.isDigit = true ∨ x = '-'
  | [a, b, c, d, e, f, g, h, i, j], hl => by
    have h10 : (a.isDigit && b.isDigit && c.isDigit && d.isDigit && (e == '-') &&
        f.isDigit && g.isDigit && (h == '-') && i.isDigit && j.isDigit) = true := hl
    simp only [Bool.and_eq_true, beq_iff_eq] at h10
    obtain ⟨⟨⟨⟨⟨⟨⟨⟨⟨ha, hb⟩, hc⟩, hd⟩, he⟩, hf⟩, hg⟩, hh⟩, hi⟩, hj⟩ := h10
    intro x hx
    simp only [List.mem_cons, List.not_mem_nil, or_false] at hx
    rcases hx with rfl | rfl | rfl | rfl | rfl | rfl | rfl | rfl | rfl | rfl
    · exact Or.inl ha
    · exact Or.inl hb
    · exact Or.inl hc
    · exact Or.inl hd
    · exact Or.inr he
    · exact Or.inl hf
    · exact Or.inl hg
    · exact Or.inr hh
    · exact Or.inl hi
    · exact Or.inl hj
  | [], hl => nomatch hl
  | [_], hl => nomatch hl
  | [_, _], hl => nomatch hl
  | [_, _, _], hl => nomatch hl
  | [_, _, _, _], hl => nomatch hl
  | [_, _, _, _, _], hl => nomatch hl
  | [_, _, _, _, _, _], hl => nomatch hl
  | [_, _, _, _, _, _, _], hl => nomatch hl
  | [_, _, _, _, _, _, _, _], hl => nomatch hl
  | [_, _, _, _, _, _, _, _, _], hl => nomatch hl
  | _ :: _ :: _ :: _ :: _ :: _ :: _ :: _ :: _ :: _ :: _ :: _, hl => nomatch hl

/-- C9: `parseRelativeDate` maps "morgen" to the calendar day after the current
day in `YYYY-MM-DD` form, returns `none` on the unrecognized expression
"not-a-date" instead of erroring, and passes an input already in `YYYY-MM-DD`
form through unchanged. -/
theorem C9_parse_relative_date :
    (∀ today : Nat, parseRelativeDate today (some "morgen") =
        some (formatISODate (today + 1))) ∧
    (∀ today : Nat, parseRelativeDate today (some "not-a-date") = none) ∧
    ∀ (today : Nat) (s : String), isIsoDate s.data = true →
      parseRelativeDate today (some s) = some s := by
  refine ⟨fun today => rfl, fun today => rfl, fun today s hiso => ?_⟩
  have hchars := isIsoDate_chars s.data hiso
  have hlow : jsToLower s = s :=
    jsToLower_fix s fun c hc => toLower_fix c (hchars c hc)
  have htrim : jsTrim s = s :=
    jsTrim_fix s fun c hc => not_ws_of_digit_hyphen c (hchars c hc)
  have hne0 : ¬(s = "") := by
    intro h
    rw [h] at hiso
    exact absurd hiso (by decide)
  have hlitne : ∀ (lit : String) (c : Char), c ∈ lit.data → c.isDigit = false →
      c ≠ '-' → ¬(s = lit) := by
    intro lit c hcl hcd hch heq
    subst heq
    rcases hchars c hcl with hd | hd
    · rw [hcd] at hd
      exact Bool.noConfusion hd
    · exact hch hd
  have hinc : ∀ (pat : String) (c : Char), c ∈ pat.data → c.isDigit = false →
      c ≠ '-' → jsIncludes s pat = false := by
    intro pat c hcp hcd hch
    cases hq : jsIncludes s pat with
    | false => rfl
    | true =>
      exfalso
      have hsub := containsSub_subset s.data pat.data hq c hcp
      rcases hchars c hsub with hd | hd
      · rw [hcd] at hd
        exact Bool.noConfusion hd
      · exact hch hd
  have h1 : ¬(s = "heute" ∨ s = "today") := by
    rintro (h | h)
    · exact hlitne "heute" 'h' (by decide) (by decide) (by decide) h
    · exact hlitne "today" 't' (by decide) (by decide) (by decide) h
  have h2 : ¬(s = "morgen" ∨ s = "tomorrow") := by
    rintro (h | h)
    · exact hlitne "morgen" 'm' (by decide) (by decide) (by decide) h
    · exact hlitne "tomorrow" 't' (by decide) (by decide) (by decide) h
  have h3 : ¬(s = "übermorgen" ∨ s = "day after tomorrow") := by
    rintro (h | h)
    · exact hlitne "übermorgen" 'b' (by decide) (by decide) (by decide) h
    · exact hlitne "day after tomorrow" 'y' (by decide) (by decide) (by decide) h
  have hfind : weekdays.enum.find? (fun p => jsIncludes s p.2) = none := by
    have he : weekdays.enum = [(0, "sonntag"), (1, "montag"), (2, "dienstag"),
        (3, "mittwoch"), (4, "donnerstag"), (5, "freitag"), (6, "samstag")] := rfl
    rw [he, List.find?_eq_none]
    intro p hp
    simp only [List.mem_cons, List.not_mem_nil, or_false] at hp
    rcases hp with rfl | rfl | rfl | rfl | rfl | rfl | rfl
    · simp [hinc "sonntag" 's' (by decide) (by decide) (by decide)]
    · simp [hinc "montag" 'm' (by decide) (by decide) (by decide)]
    · simp [hinc "dienstag" 'd' (by decide) (by decide) (by decide)]
    · simp [hinc "mittwoch" 'w' (by decide) (by decide) (by decide)]
    · simp [hinc "donnerstag" 'g' (by decide) (by decide) (by decide)]
    · simp [hinc "freitag" 'f' (by decide) (by decide) (by decide)]
    · simp [hinc "samstag" 'g' (by decide) (by decide) (by decide)]
  have h5 : ¬(jsIncludes s "nächste woche" = true ∨ s = "next week") := by
    rintro (h | h)
    · rw [hinc "nächste woche" 'n' (by decide) (by decide) (by decide)] at h
      exact Bool.noConfusion h
    · exact hlitne "next week" 'n' (by decide) (by decide) (by decide) h
  have hfin : ∀ u : List Char, findInNum s.data u = none := by
    intro u
    cases hq : findInNum s.data u with
    | none => rfl
    | some n =>
      exfalso
      have hi := findInNum_mem s.data u n hq
      rcases hchars 'i' hi with hd | hd
      · exact absurd hd (by decide)
      · exact absurd hd (by decide)
  simp only [parseRelativeDate, hlow, htrim, if_neg hne0, if_neg h1, if_neg h2,
    if_neg h3, hfind, if_neg h5, hfin, if_pos hiso]

theorem C9_witness :
    isIsoDate ("2025-02-01".data) = true ∧
    parseRelativeDate 20000 (some "2025-02-01") = some "2025-02-01" :=
  ⟨by decide, C9_parse_relative_date.2.2 20000 "2025-02-01" (by decide)⟩

end NexMind
